import Mathlib

/-!
Verification of the content-calendar pipeline (src/app.py) against its
natural-language specification.  Python strings are modelled as lists of
characters, Python dicts parsed from JSON as association lists, raised
Python exceptions as an explicit error type threaded through `Except`.
All definitions are translated from the source; external collaborators
(the HTTP transport, the search backend) enter as explicit parameters so
that every control path of the source is represented.
-/

set_option maxHeartbeats 1000000

/-- A Python `str`, modelled as its list of characters. -/
abbrev PyStr := List Char

/-- Embed a Lean string literal as a `PyStr`. -/
def pys (s : String) : PyStr := s.data

/-- A raised Python exception: the class name and what `str(e)` returns. -/
structure PyExc where
  ty : String
  msg : PyStr
deriving DecidableEq

/-- Python `str.split(sep)` for a one-character separator: splits on every
occurrence, keeping empty segments, and always returns at least one
segment. -/
def splitCh (c : Char) : PyStr → List PyStr
  | [] => [[]]
  | x :: xs =>
    if x = c then [] :: splitCh c xs
    else
      match splitCh c xs with
      | [] => [[x]]
      | p :: ps => (x :: p) :: ps

/-- The characters Python `str.strip()` removes (ASCII whitespace). -/
def isPyWs (c : Char) : Bool :=
  c = ' ' || c = '\t' || c = '\n' || c = '\r' || c = '\x0b' || c = '\x0c'

/-- Python `str.strip()`: drop leading and trailing whitespace. -/
def pyStrip (s : PyStr) : PyStr :=
  ((s.dropWhile isPyWs).reverse.dropWhile isPyWs).reverse

/-- Python `str.startswith(p)`. -/
def pyStartsWith (p s : PyStr) : Bool := p.isPrefixOf s

/-- Python substring containment, `needle in hay` for strings. -/
def isSub (needle hay : PyStr) : Bool :=
  if needle.isPrefixOf hay then true
  else
    match hay with
    | [] => false
    | _ :: t => isSub needle t

/-- A JSON-shaped Python value: the universe of values flowing through the
pipeline (parsed backend responses, the dicts the program builds).
Python floats are represented by their `repr` token, which is the form in
which the program observes and serializes them. -/
inductive JVal where
  | str (s : PyStr)
  | num (tok : PyStr)
  | bool (b : Bool)
  | null
  | arr (elems : List JVal)
  | obj (fields : List (PyStr × JVal))

mutual

/-- Decidable equality on `JVal` (hand-written: the nested inductive defeats
the deriving handler). -/
def jvalDecEq : (a b : JVal) → Decidable (a = b)
  | .str a, .str b =>
    if h : a = b then .isTrue (by rw [h]) else .isFalse (fun hh => by cases hh; exact h rfl)
  | .num a, .num b =>
    if h : a = b then .isTrue (by rw [h]) else .isFalse (fun hh => by cases hh; exact h rfl)
  | .bool a, .bool b =>
    if h : a = b then .isTrue (by rw [h]) else .isFalse (fun hh => by cases hh; exact h rfl)
  | .null, .null => .isTrue rfl
  | .arr xs, .arr ys =>
    match jlistDecEq xs ys with
    | .isTrue h => .isTrue (by rw [h])
    | .isFalse h => .isFalse (fun hh => by cases hh; exact h rfl)
  | .obj fs, .obj gs =>
    match jfieldsDecEq fs gs with
    | .isTrue h => .isTrue (by rw [h])
    | .isFalse h => .isFalse (fun hh => by cases hh; exact h rfl)
  | .str _, .num _ => .isFalse (fun h => by cases h)
  | .str _, .bool _ => .isFalse (fun h => by cases h)
  | .str _, .null => .isFalse (fun h => by cases h)
  | .str _, .arr _ => .isFalse (fun h => by cases h)
  | .str _, .obj _ => .isFalse (fun h => by cases h)
  | .num _, .str _ => .isFalse (fun h => by cases h)
  | .num _, .bool _ => .isFalse (fun h => by cases h)
  | .num _, .null => .isFalse (fun h => by cases h)
  | .num _, .arr _ => .isFalse (fun h => by cases h)
  | .num _, .obj _ => .isFalse (fun h => by cases h)
  | .bool _, .str _ => .isFalse (fun h => by cases h)
  | .bool _, .num _ => .isFalse (fun h => by cases h)
  | .bool _, .null => .isFalse (fun h => by cases h)
  | .bool _, .arr _ => .isFalse (fun h => by cases h)
  | .bool _, .obj _ => .isFalse (fun h => by cases h)
  | .null, .str _ => .isFalse (fun h => by cases h)
  | .null, .num _ => .isFalse (fun h => by cases h)
  | .null, .bool _ => .isFalse (fun h => by cases h)
  | .null, .arr _ => .isFalse (fun h => by cases h)
  | .null, .obj _ => .isFalse (fun h => by cases h)
  | .arr _, .str _ => .isFalse (fun h => by cases h)
  | .arr _, .num _ => .isFalse (fun h => by cases h)
  | .arr _, .bool _ => .isFalse (fun h => by cases h)
  | .arr _, .null => .isFalse (fun h => by cases h)
  | .arr _, .obj _ => .isFalse (fun h => by cases h)
  | .obj _, .str _ => .isFalse (fun h => by cases h)
  | .obj _, .num _ => .isFalse (fun h => by cases h)
  | .obj _, .bool _ => .isFalse (fun h => by cases h)
  | .obj _, .null => .isFalse (fun h => by cases h)
  | .obj _, .arr _ => .isFalse (fun h => by cases h)

/-- Decidable equality on lists of `JVal`. -/
def jlistDecEq : (a b : List JVal) → Decidable (a = b)
  | [], [] => .isTrue rfl
  | [], _ :: _ => .isFalse (fun h => by cases h)
  | _ :: _, [] => .isFalse (fun h => by cases h)
  | x :: xs, y :: ys =>
    match jvalDecEq x y with
    | .isFalse h => .isFalse (fun hh => by cases hh; exact h rfl)
    | .isTrue h1 =>
      match jlistDecEq xs ys with
      | .isTrue h2 => .isTrue (by rw [h1, h2])
      | .isFalse h => .isFalse (fun hh => by cases hh; exact h rfl)

/-- Decidable equality on `JVal` object field lists. -/
def jfieldsDecEq : (a b : List (PyStr × JVal)) → Decidable (a = b)
  | [], [] => .isTrue rfl
  | [], _ :: _ => .isFalse (fun h => by cases h)
  | _ :: _, [] => .isFalse (fun h => by cases h)
  | (k, v) :: xs, (k', v') :: ys =>
    if hk : k = k' then
      match jvalDecEq v v' with
      | .isFalse h => .isFalse (fun hh => by cases hh; exact h rfl)
      | .isTrue h1 =>
        match jfieldsDecEq xs ys with
        | .isTrue h2 => .isTrue (by rw [hk, h1, h2])
        | .isFalse h => .isFalse (fun hh => by cases hh; exact h rfl)
    else .isFalse (fun hh => by cases hh; exact hk rfl)

end

instance : DecidableEq JVal := jvalDecEq

/-- First-match association lookup, the read view of a Python dict. -/
def jFind (fs : List (PyStr × JVal)) (k : PyStr) : Option JVal :=
  match fs with
  | [] => none
  | (k', v) :: rest => if k' = k then some v else jFind rest k

/-- The key list of a Python dict in insertion order. -/
def jKeys (fs : List (PyStr × JVal)) : List PyStr := fs.map Prod.fst

/-- Python dict assignment `d[k] = v`: replaces the value in place when the
key exists (keeping its original position), otherwise appends. -/
def dinsert (fs : List (PyStr × JVal)) (k : PyStr) (v : JVal) :
    List (PyStr × JVal) :=
  match fs with
  | [] => [(k, v)]
  | (k', v') :: rest =>
    if k' = k then (k', v) :: rest else (k', v') :: dinsert rest k v

/-- The Python type name of a value, as it appears in error messages. -/
def jTypeName : JVal → String
  | .str _ => "str"
  | .num _ => "float"
  | .bool _ => "bool"
  | .null => "NoneType"
  | .arr _ => "list"
  | .obj _ => "dict"

/-- Python `k in v` for a string key: dict membership, list membership,
substring test on strings; other receivers raise `TypeError`. -/
def pyIn (k : PyStr) (v : JVal) : Except PyExc Bool :=
  match v with
  | .obj fs => .ok ((jFind fs k).isSome)
  | .arr xs => .ok (xs.contains (.str k))
  | .str s => .ok (isSub k s)
  | _ =>
    .error ⟨"TypeError",
      pys "argument of type \x27" ++ pys (jTypeName v) ++ pys "\x27 is not iterable"⟩

/-- Python subscript `v[k]` with a string key. -/
def pySub (v : JVal) (k : PyStr) : Except PyExc JVal :=
  match v with
  | .obj fs =>
    match jFind fs k with
    | some x => .ok x
    | none => .error ⟨"KeyError", '\x27' :: k ++ ['\x27']⟩
  | .str _ => .error ⟨"TypeError", pys "string indices must be integers"⟩
  | .arr _ => .error ⟨"TypeError", pys "list indices must be integers or slices, not str"⟩
  | _ =>
    .error ⟨"TypeError",
      pys "\x27" ++ pys (jTypeName v) ++ pys "\x27 object is not subscriptable"⟩

/-- Python subscript `v[i]` with an integer index. -/
def pyIdx (v : JVal) (i : Nat) : Except PyExc JVal :=
  match v with
  | .arr xs =>
    match xs.get? i with
    | some x => .ok x
    | none => .error ⟨"IndexError", pys "list index out of range"⟩
  | .str s =>
    match s.get? i with
    | some c => .ok (.str [c])
    | none => .error ⟨"IndexError", pys "string index out of range"⟩
  | _ =>
    .error ⟨"TypeError",
      pys "\x27" ++ pys (jTypeName v) ++ pys "\x27 object is not subscriptable"⟩

/-- Python `len(v)`. -/
def pyLen (v : JVal) : Except PyExc Nat :=
  match v with
  | .arr xs => .ok xs.length
  | .obj fs => .ok fs.length
  | .str s => .ok s.length
  | _ =>
    .error ⟨"TypeError",
      pys "object of type \x27" ++ pys (jTypeName v) ++ pys "\x27 has no len()"⟩

/-- Python `v.get(k, default)` for dicts; any other receiver raises
`AttributeError` (the source calls `.get` on backend-supplied values). -/
def pyGetD (v : JVal) (k : PyStr) (d : JVal) : Except PyExc JVal :=
  match v with
  | .obj fs => .ok ((jFind fs k).getD d)
  | _ =>
    .error ⟨"AttributeError",
      pys "\x27" ++ pys (jTypeName v) ++ pys "\x27 object has no attribute \x27get\x27"⟩

/-- Python `for x in v` over a backend-supplied value: lists yield their
elements; strings yield one-character strings; dicts yield their keys;
the rest raise `TypeError`. -/
def pyListIter (v : JVal) : Except PyExc (List JVal) :=
  match v with
  | .arr xs => .ok xs
  | .str s => .ok (s.map (fun c => .str [c]))
  | .obj fs => .ok (fs.map (fun f => .str f.1))
  | _ =>
    .error ⟨"TypeError",
      pys "\x27" ++ pys (jTypeName v) ++ pys "\x27 object is not iterable"⟩

/-- Python `v.split(sep)` where `v` should be a string. -/
def pyStrSplit (v : JVal) (sep : Char) : Except PyExc (List PyStr) :=
  match v with
  | .str s => .ok (splitCh sep s)
  | _ =>
    .error ⟨"AttributeError",
      pys "\x27" ++ pys (jTypeName v) ++ pys "\x27 object has no attribute \x27split\x27"⟩

/-- Index into a list of strings, raising `IndexError` as Python does. -/
def listIdx (xs : List PyStr) (i : Nat) : Except PyExc PyStr :=
  match xs.get? i with
  | some x => .ok x
  | none => .error ⟨"IndexError", pys "list index out of range"⟩

/-! ## JSON serialization (the behaviour of Python json.dumps / json.dump)

The source hands its dicts to the standard json module: `json.dumps(result)`
inside the unexpected-shape error message (compact form, separators
written as a comma-space and a colon-space) and `json.dump(data, f,
indent=4)` in persistence.  Both are modelled here over `JVal`, with the
string escaping the module applies under its default `ensure_ascii`:
double quote, backslash and the common control characters get two-letter
escapes, every other character outside printable ASCII becomes a
`\uXXXX` escape, with a surrogate pair for characters beyond the basic
plane. -/

/-- Lower-case hex digit of a value below 16. -/
def hexDigitCh (n : Nat) : Char :=
  if n < 10 then Char.ofNat ('0'.toNat + n) else Char.ofNat ('a'.toNat + (n - 10))

/-- A four-digit `\uXXXX` escape. -/
def uEsc (n : Nat) : PyStr :=
  ['\\', 'u', hexDigitCh (n / 4096 % 16), hexDigitCh (n / 256 % 16),
   hexDigitCh (n / 16 % 16), hexDigitCh (n % 16)]

/-- How json.dumps renders one character of a string under `ensure_ascii`. -/
def escChar (c : Char) : PyStr :=
  if c = '"' then ['\\', '"']
  else if c = '\\' then ['\\', '\\']
  else if c = '\n' then ['\\', 'n']
  else if c = '\r' then ['\\', 'r']
  else if c = '\t' then ['\\', 't']
  else if c.toNat = 8 then ['\\', 'b']
  else if c.toNat = 12 then ['\\', 'f']
  else if c.toNat < 0x20 then uEsc c.toNat
  else if c.toNat < 0x7f then [c]
  else if c.toNat < 0x10000 then uEsc c.toNat
  else uEsc (0xd800 + (c.toNat - 0x10000) / 0x400) ++ uEsc (0xdc00 + (c.toNat - 0x10000) % 0x400)

/-- A JSON string literal: quote, escaped body, quote. -/
def dumpStr (s : PyStr) : PyStr := '"' :: (s.map escChar).flatten ++ ['"']

mutual

/-- `json.dumps(v)` with the default compact separators. -/
def jdumpC : JVal → PyStr
  | .str s => dumpStr s
  | .num t => t
  | .bool b => if b then pys "true" else pys "false"
  | .null => pys "null"
  | .arr xs => '[' :: jdumpArrC xs ++ [']']
  | .obj fs => '{' :: jdumpObjC fs ++ ['}']

/-- Comma-space separated array items of the compact form. -/
def jdumpArrC : List JVal → PyStr
  | [] => []
  | [x] => jdumpC x
  | x :: y :: ys => jdumpC x ++ ',' :: ' ' :: jdumpArrC (y :: ys)

/-- Comma-space separated `"key": value` members of the compact form. -/
def jdumpObjC : List (PyStr × JVal) → PyStr
  | [] => []
  | [(k, v)] => dumpStr k ++ ':' :: ' ' :: jdumpC v
  | (k, v) :: f :: fs => dumpStr k ++ ':' :: ' ' :: jdumpC v ++ ',' :: ' ' :: jdumpObjC (f :: fs)

end

/-- The indentation prefix json.dump writes at nesting level `lvl` for
`indent=4`. -/
def indentOf (lvl : Nat) : PyStr := List.replicate (4 * lvl) ' '

mutual

/-- `json.dump(v, f, indent=4)`: the text written at nesting level `lvl`.
Empty containers print without a line break; nonempty ones put every
item on its own indented line. -/
def jdump : Nat → JVal → PyStr
  | _, .str s => dumpStr s
  | _, .num t => t
  | _, .bool b => if b then pys "true" else pys "false"
  | _, .null => pys "null"
  | _, .arr [] => ['[', ']']
  | lvl, .arr (x :: xs) =>
    '[' :: '\n' :: jdumpItems (lvl + 1) (x :: xs) ++ '\n' :: indentOf lvl ++ [']']
  | _, .obj [] => ['{', '}']
  | lvl, .obj (f :: fs) =>
    '{' :: '\n' :: jdumpFields (lvl + 1) (f :: fs) ++ '\n' :: indentOf lvl ++ ['}']

/-- The indented, comma-newline separated items of a nonempty array. -/
def jdumpItems : Nat → List JVal → PyStr
  | _, [] => []
  | lvl, [x] => indentOf lvl ++ jdump lvl x
  | lvl, x :: y :: ys => indentOf lvl ++ jdump lvl x ++ ',' :: '\n' :: jdumpItems lvl (y :: ys)

/-- The indented, comma-newline separated members of a nonempty object. -/
def jdumpFields : Nat → List (PyStr × JVal) → PyStr
  | _, [] => []
  | lvl, [(k, v)] => indentOf lvl ++ dumpStr k ++ ':' :: ' ' :: jdump lvl v
  | lvl, (k, v) :: f :: fs =>
    indentOf lvl ++ dumpStr k ++ ':' :: ' ' :: jdump lvl v ++ ',' :: '\n' :: jdumpFields lvl (f :: fs)

end

/-- The document `json.dump(v, f, indent=4)` writes. -/
def dumps4 (v : JVal) : PyStr := jdump 0 v

/-- One character of a Python `repr` string (escaping as repr does for
backslash, the quote, and common control characters; repr is only used
here to render non-string values into f-string prompts, and its
quote-style refinements are not observable by any claim). -/
def reprEsc (c : Char) : PyStr :=
  if c = '\\' then ['\\', '\\']
  else if c = '\x27' then ['\\', '\x27']
  else if c = '\n' then ['\\', 'n']
  else if c = '\r' then ['\\', 'r']
  else if c = '\t' then ['\\', 't']
  else if c.toNat < 0x20 then ['\\', 'x', hexDigitCh (c.toNat / 16 % 16), hexDigitCh (c.toNat % 16)]
  else [c]

mutual

/-- Python `repr(v)` for the JSON-shaped values. -/
def jReprOf : JVal → PyStr
  | .str s => '\x27' :: (s.map reprEsc).flatten ++ ['\x27']
  | .num t => t
  | .bool b => pys (if b then "True" else "False")
  | .null => pys "None"
  | .arr xs => '[' :: jReprArr xs ++ [']']
  | .obj fs => '{' :: jReprObj fs ++ ['}']

/-- Comma-space separated items of a list repr. -/
def jReprArr : List JVal → PyStr
  | [] => []
  | [x] => jReprOf x
  | x :: y :: ys => jReprOf x ++ ',' :: ' ' :: jReprArr (y :: ys)

/-- Comma-space separated `key: value` members of a dict repr. -/
def jReprObj : List (PyStr × JVal) → PyStr
  | [] => []
  | [(k, v)] => jReprOf (.str k) ++ ':' :: ' ' :: jReprOf v
  | (k, v) :: f :: fs => jReprOf (.str k) ++ ':' :: ' ' :: jReprOf v ++ ',' :: ' ' :: jReprObj (f :: fs)

end

/-- Python `str(v)`, as an f-string interpolation renders a value. -/
def jStrOf : JVal → PyStr
  | .str s => s
  | .num t => t
  | .bool b => pys (if b then "True" else "False")
  | .null => pys "None"
  | .arr xs => jReprOf (.arr xs)
  | .obj fs => jReprOf (.obj fs)

/-! ## Resilient HTTP client (create_session, lines 94-105)

The source configures `urllib3.util.retry.Retry(total=3, backoff_factor=1,
status_forcelist=[500, 502, 503, 504])` on a fresh `requests.Session`.
Under that configuration urllib3 sends the request, and whenever the
response status is in the forcelist it decrements the remaining total and
retries; when the total is exhausted it raises `MaxRetryError`, which
requests surfaces as `requests.exceptions.RetryError`.  So `total=3`
allows three retries after the initial attempt: four requests in all. -/

/-- An HTTP response: final status plus parsed JSON body. -/
structure HttpResp where
  status : Nat
  body : JVal

/-- The retry configuration carried by a session adapter. -/
structure RetryCfg where
  total : Nat
  backoff_factor : Nat
  status_forcelist : List Nat
deriving DecidableEq

/-- `create_session()`: a session whose adapter retries with
`Retry(total=3, backoff_factor=1, status_forcelist=[500, 502, 503, 504])`. -/
def create_session : RetryCfg := ⟨3, 1, [500, 502, 503, 504]⟩

/-- urllib3's retry loop: `backend n` is the response to the `n`-th request
of one logical call.  A status in the forcelist consumes one retry; with
none left the call raises (requests.exceptions.RetryError wrapping
urllib3's MaxRetryError).  Any other status is returned as the response. -/
def retryLoop (backend : Nat → HttpResp) (forcelist : List Nat) :
    Nat → Nat → Except PyExc HttpResp
  | remaining, attempt =>
    let r := backend attempt
    if r.status ∈ forcelist then
      match remaining with
      | 0 => .error ⟨"RetryError", pys "Max retries exceeded with url"⟩
      | rem + 1 => retryLoop backend forcelist rem (attempt + 1)
    else .ok r

/-- One request through a session made by `create_session`. -/
def sessionRequest (cfg : RetryCfg) (backend : Nat → HttpResp) : Except PyExc HttpResp :=
  retryLoop backend cfg.status_forcelist cfg.total 0

/-! ## Text-generation adapter (generate_content, lines 165-224)

The transport phase (session.post, raise_for_status, response.json) is
abstracted into an outcome: which exception it raised, or the parsed
JSON body of a successful call.  An HTTPError from raise_for_status and a
RetryError from exhausted retries are both `requests.exceptions.
RequestException`s, so they arrive as `reqErr` with their rendered
message; a body that is not JSON makes `response.json()` raise
`ValueError`, which only the final generic handler catches. -/

/-- Outcome of the transport phase of one backend call. -/
inductive HttpOutcome where
  | connErr
  | timeoutErr
  | reqErr (s : PyStr)
  | valueErr (s : PyStr)
  | success (body : JVal)

/-- The elif-chain of lines 205-212: top-level `response`, then `text`,
then `content`, else the unexpected-format failure carrying
`json.dumps(result)`. -/
def extractFallback (result : JVal) : Except PyExc JVal :=
  match pyIn (pys "response") result with
  | .error e => .error e
  | .ok true => pySub result (pys "response")
  | .ok false =>
    match pyIn (pys "text") result with
    | .error e => .error e
    | .ok true => pySub result (pys "text")
    | .ok false =>
      match pyIn (pys "content") result with
      | .error e => .error e
      | .ok true => pySub result (pys "content")
      | .ok false =>
        .error ⟨"Exception", pys "Unexpected API response format: " ++ jdumpC result⟩

/-- Lines 203-212: `if 'choices' in result and len(result['choices']) > 0:
return result['choices'][0]['message']['content']`, else the fallback
chain.  Every subscript failure propagates as the Python exception it
raises. -/
def extractContent (result : JVal) : Except PyExc JVal :=
  match pyIn (pys "choices") result with
  | .error e => .error e
  | .ok false => extractFallback result
  | .ok true =>
    match pySub result (pys "choices") with
    | .error e => .error e
    | .ok cs =>
      match pyLen cs with
      | .error e => .error e
      | .ok n =>
        if 0 < n then
          match pySub result (pys "choices") with
          | .error e => .error e
          | .ok cs' =>
            match pyIdx cs' 0 with
            | .error e => .error e
            | .ok c0 =>
              match pySub c0 (pys "message") with
              | .error e => .error e
              | .ok m => pySub m (pys "content")
        else extractFallback result

/-- `generate_content(prompt)`: the except-chain of lines 214-221.  The
three transport handlers re-raise bare `Exception`s with fixed message
texts; everything raised inside the try body itself (the unexpected-shape
failure, a KeyError from the nested subscripts, a ValueError from
`response.json()`) is caught by the final generic handler and re-raised
wrapped in the `Error generating content:` prefix. -/
def generate_content (backend : PyStr → HttpOutcome) (prompt : PyStr) : Except PyExc JVal :=
  match backend prompt with
  | .connErr =>
    .error ⟨"Exception",
      pys "Network connection error. Please check your internet connection and try again."⟩
  | .timeoutErr => .error ⟨"Exception", pys "Request timed out. Please try again."⟩
  | .reqErr s => .error ⟨"Exception", pys "Error making request: " ++ s⟩
  | .valueErr s => .error ⟨"Exception", pys "Error generating content: " ++ s⟩
  | .success result =>
    match extractContent result with
    | .ok v => .ok v
    | .error e => .error ⟨"Exception", pys "Error generating content: " ++ e.msg⟩

/-! ## Web-search adapter (search_web, lines 107-134) -/

/-- The parameter dict handed to the search backend. -/
structure SerpParams where
  api_key : PyStr
  engine : PyStr
  q : PyStr
  num : Nat
deriving DecidableEq

/-- Lines 110-120: base engine `google`, overridden to `google_scholar`
for the scholar vertical and `youtube` for the video vertical. -/
def searchParams (apiKey query search_type : PyStr) : SerpParams :=
  ⟨apiKey,
   if search_type = pys "scholar" then pys "google_scholar"
   else if search_type = pys "videos" then pys "youtube"
   else pys "google",
   query, 5⟩

/-- `search_web(query, search_type)`: runs the search and extracts the
vertical-appropriate result array with `.get(key, [])`; the enclosing
try/except turns any raise (a backend failure, or `.get` on a value
that is not a dict) into a logged empty list. -/
def search_web (serp : SerpParams → Except PyExc JVal) (apiKey query search_type : PyStr) :
    JVal :=
  let key :=
    if search_type = pys "scholar" then pys "organic_results"
    else if search_type = pys "videos" then pys "video_results"
    else pys "organic_results"
  match serp (searchParams apiKey query search_type) with
  | .error _ => .arr []
  | .ok results =>
    match pyGetD results key (.arr []) with
    | .error _ => .arr []
    | .ok v => v

/-! ## Image-search adapter (search_pixabay, lines 136-163) -/

/-- `search_pixabay(query, count)`: on a successful transport outcome
returns `result.get('hits', [])`; every raise inside the try (connection
failure, timeout, a 4xx/5xx from raise_for_status, a non-JSON body, or
`.get` on a non-dict) is caught and becomes an empty list. -/
def search_pixabay (backend : PyStr → Nat → HttpOutcome) (query : PyStr) (count : Nat) :
    JVal :=
  match backend query count with
  | .success result =>
    match pyGetD result (pys "hits") (.arr []) with
    | .ok v => v
    | .error _ => .arr []
  | _ => .arr []

/-! ## Resource aggregator (generate_resources_for_topic, lines 226-271) -/

/-- Sequence a fallible map, stopping at the first raise. -/
def mapExc {α β : Type} (f : α → Except PyExc β) : List α → Except PyExc (List β)
  | [] => .ok []
  | x :: xs =>
    match f x with
    | .error e => .error e
    | .ok y =>
      match mapExc f xs with
      | .error e => .error e
      | .ok ys => .ok (y :: ys)

/-- One appended record: `{out : result.get(src, "") for (out, src) in spec}`. -/
def itemOf (spec : List (PyStr × PyStr)) (r : JVal) : Except PyExc JVal :=
  match mapExc (fun kv =>
    match pyGetD r kv.2 (.str []) with
    | .error e => .error e
    | .ok v => .ok ((kv.1, v) : PyStr × JVal)) spec with
  | .error e => .error e
  | .ok fs => .ok (.obj fs)

/-- `generate_resources_for_topic(topic)`: four searches, each appending
normalized records to its list in the bundle initialised with all four
keys; the final dict is the four populated lists in their original key
order.  Raises only if a search returns a malformed record collection
(iterating a non-list, or `.get` on a non-dict record). -/
def generate_resources_for_topic (serp : SerpParams → Except PyExc JVal)
    (apiKey topic : PyStr) : Except PyExc JVal :=
  match pyListIter (search_web serp apiKey (topic ++ pys " research papers articles")
      (pys "scholar")) with
  | .error e => .error e
  | .ok researchRaw =>
    match mapExc (itemOf [(pys "title", pys "title"), (pys "link", pys "link"),
        (pys "snippet", pys "snippet")]) researchRaw with
    | .error e => .error e
    | .ok research =>
      match pyListIter (search_web serp apiKey (topic ++ pys " tutorial guide")
          (pys "videos")) with
      | .error e => .error e
      | .ok videoRaw =>
        match mapExc (itemOf [(pys "title", pys "title"), (pys "link", pys "link"),
            (pys "thumbnail", pys "thumbnail")]) videoRaw with
        | .error e => .error e
        | .ok videos =>
          match pyListIter (search_web serp apiKey
              (topic ++ pys " tools software applications") (pys "general")) with
          | .error e => .error e
          | .ok toolRaw =>
            match mapExc (itemOf [(pys "name", pys "title"), (pys "link", pys "link"),
                (pys "description", pys "snippet")]) toolRaw with
            | .error e => .error e
            | .ok tools =>
              match pyListIter (search_web serp apiKey
                  (topic ++ pys " statistics data facts") (pys "general")) with
              | .error e => .error e
              | .ok statRaw =>
                match mapExc (itemOf [(pys "title", pys "title"), (pys "link", pys "link"),
                    (pys "snippet", pys "snippet")]) statRaw with
                | .error e => .error e
                | .ok stats =>
                  .ok (.obj [(pys "research", .arr research), (pys "videos", .arr videos),
                    (pys "tools", .arr tools), (pys "stats", .arr stats)])

/-! ## Topic extractor (lines 320-325)

`for line in strategy.split('\n'): if line.startswith('Day'):
topic = line.split(':')[1].split('-')[0].strip(); topics.append(topic)`.
The colon split takes segment 1 (raising IndexError when the line has no
colon); the hyphen split takes segment 0, which always exists. -/

/-- `line.split(':')[1].split('-')[0].strip()` for one line. -/
def topicOfLine (line : PyStr) : Except PyExc PyStr :=
  match listIdx (splitCh ':' line) 1 with
  | .error e => .error e
  | .ok seg =>
    match listIdx (splitCh '-' seg) 0 with
    | .error e => .error e
    | .ok t => .ok (pyStrip t)

/-- The accumulation loop over the lines of the strategy text. -/
def extractLoop : List PyStr → List PyStr → Except PyExc (List PyStr)
  | [], acc => .ok acc
  | line :: rest, acc =>
    if pyStartsWith (pys "Day") line then
      match topicOfLine line with
      | .error e => .error e
      | .ok t => extractLoop rest (acc ++ [t])
    else extractLoop rest acc

/-- Topic extraction from the strategy text. -/
def extract_topics (strategy : PyStr) : Except PyExc (List PyStr) :=
  extractLoop (splitCh '\n' strategy) []

/-! ## Pipeline orchestrator (create_content_calendar, lines 273-344) -/

/-- The external collaborators and ambient observations of one run:
the generation backend (keyed by the prompt it receives), the search
backend, the configured search API key, and the repr of the run's
elapsed-seconds float. -/
structure Env where
  gen : PyStr → HttpOutcome
  serp : SerpParams → Except PyExc JVal
  serpApiKey : PyStr
  elapsedTok : PyStr

/-- The research prompt of lines 279-286. -/
def research_prompt (industry target_audience content_goals : PyStr) : PyStr :=
  pys "Research current trends in the " ++ industry ++ pys " industry for " ++
  target_audience ++
  pys ".\nFocus on:\n1. Top content formats (video, blog, etc.)\n2. Trending topics and hashtags\n3. Upcoming events in the next 2 weeks\n4. 5-7 potential content topics that align with: " ++
  content_goals ++ pys "\n\nProvide a concise summary (max 500 words)."

/-- The strategy prompt of lines 292-300, embedding the trends value. -/
def strategy_prompt (trends : JVal) (target_audience : PyStr) : PyStr :=
  pys "Based on this research: " ++ jStrOf trends ++
  pys "\n\nCreate a simple 7-day content calendar for " ++ target_audience ++
  pys ".\nInclude:\n1. Mix of content types (educational, promotional, etc.)\n2. One main topic per day\n3. Brief rationale for each day\n\nFormat as Day 1: [Topic] - [Type] - [Brief rationale]"

/-- The briefs prompt of lines 306-315, embedding the strategy value. -/
def brief_prompt (strategy : JVal) : PyStr :=
  pys "Based on this calendar: " ++ jStrOf strategy ++
  pys "\n\nCreate brief content outlines for each day.\nFor each day include:\n1. Headline\n2. Brief hook\n3. 3-5 key points\n4. Call-to-action\n\nKeep each day\x27s brief concise and focused."

/-- Lines 328-331: `resources = {}` then
`for topic in topics: resources[topic] = generate_resources_for_topic(topic)`. -/
def buildResources (env : Env) :
    List PyStr → List (PyStr × JVal) → Except PyExc (List (PyStr × JVal))
  | [], acc => .ok acc
  | t :: ts, acc =>
    match generate_resources_for_topic env.serp env.serpApiKey t with
    | .error e => .error e
    | .ok b => buildResources env ts (dinsert acc t b)

/-- The try-block of create_content_calendar (lines 275-341): three chained
generation calls, topic extraction from the strategy value, resource
aggregation per topic, and the assembled success dict. -/
def ccBody (env : Env) (industry target_audience content_goals : PyStr) :
    Except PyExc JVal :=
  match generate_content env.gen (research_prompt industry target_audience content_goals) with
  | .error e => .error e
  | .ok trends =>
    match generate_content env.gen (strategy_prompt trends target_audience) with
    | .error e => .error e
    | .ok strategy =>
      match generate_content env.gen (brief_prompt strategy) with
      | .error e => .error e
      | .ok briefs =>
        match pyStrSplit strategy '\n' with
        | .error e => .error e
        | .ok strategyLines =>
          match extractLoop strategyLines [] with
          | .error e => .error e
          | .ok topics =>
            match buildResources env topics [] with
            | .error e => .error e
            | .ok resources =>
              .ok (.obj [(pys "trends", trends), (pys "strategy", strategy),
                (pys "briefs", briefs), (pys "resources", .obj resources),
                (pys "execution_time", .num env.elapsedTok)])

/-- `create_content_calendar(industry, target_audience, content_goals)`:
the try-block result, or the `except Exception` handler of lines 343-344
returning `{'error': str(e)}`. -/
def create_content_calendar (env : Env) (industry target_audience content_goals : PyStr) :
    JVal :=
  match ccBody env industry target_audience content_goals with
  | .ok v => v
  | .error e => .obj [(pys "error", .str e.msg)]

/-! ## Persistence (save_content_calendar, lines 346-362) -/

/-- The wall-clock fields `datetime.now().strftime("%Y%m%d_%H%M%S")` reads. -/
structure PyDateTime where
  year : Nat
  month : Nat
  day : Nat
  hour : Nat
  minute : Nat
  second : Nat

/-- A decimal numeral zero-padded to width `w`. -/
def padNum (w n : Nat) : PyStr :=
  let ds := Nat.toDigits 10 n
  List.replicate (w - ds.length) '0' ++ ds

/-- `strftime("%Y%m%d_%H%M%S")`. -/
def strftimeTs (t : PyDateTime) : PyStr :=
  padNum 4 t.year ++ padNum 2 t.month ++ padNum 2 t.day ++
  '_' :: (padNum 2 t.hour ++ padNum 2 t.minute ++ padNum 2 t.second)

/-- `save_content_calendar`: builds the run document and writes it with
`json.dump(data, f, indent=4)`.  Returns the filename and the file text. -/
def save_content_calendar (now : PyDateTime)
    (industry target_audience content_goals : PyStr) (result : JVal) :
    PyStr × PyStr :=
  let timestamp := strftimeTs now
  let filename := pys "content_calendar_" ++ timestamp ++ pys ".json"
  let data : JVal := .obj [(pys "industry", .str industry),
    (pys "target_audience", .str target_audience),
    (pys "content_goals", .str content_goals),
    (pys "timestamp", .str timestamp),
    (pys "content_calendar", result)]
  (filename, dumps4 data)

/-! ## JSON decoding (the behaviour of Python json.loads)

Reading the persisted file back goes through `json.loads`.  The decoder
below models it over the same value universe: strings unescape (with
surrogate pairs recombined; lone surrogates, which Lean characters cannot
carry and the encoder never emits, are outside the model), objects are
built with dict semantics (a repeated key keeps its first position and
last value), and a number is scanned as a maximal token, which on every
token the encoder emits coincides with the JSON number grammar.  The
recursion fuel is a model artefact: any fuel at least the size of the
document gives the behaviour of the real decoder. -/

/-- JSON whitespace. -/
def isJsonWs (c : Char) : Bool := c = ' ' || c = '\t' || c = '\n' || c = '\r'

/-- Drop leading JSON whitespace. -/
def skipWs (s : PyStr) : PyStr := s.dropWhile isJsonWs

/-- The value of a hex digit. -/
def hexVal? (c : Char) : Option Nat :=
  if '0' ≤ c ∧ c ≤ '9' then some (c.toNat - '0'.toNat)
  else if 'a' ≤ c ∧ c ≤ 'f' then some (c.toNat - 'a'.toNat + 10)
  else if 'A' ≤ c ∧ c ≤ 'F' then some (c.toNat - 'A'.toNat + 10)
  else none

mutual

/-- The body of a string literal, after its opening quote: returns the
decoded content and the text after the closing quote. -/
def parseStrBody : PyStr → Option (PyStr × PyStr)
  | [] => none
  | c :: rest =>
    if c = '"' then some ([], rest)
    else if c = '\\' then parseEsc rest
    else (parseStrBody rest).map (fun p => (c :: p.1, p.2))

/-- One backslash escape. -/
def parseEsc : PyStr → Option (PyStr × PyStr)
  | [] => none
  | e :: rest =>
    if e = '"' then (parseStrBody rest).map (fun p => ('"' :: p.1, p.2))
    else if e = '\\' then (parseStrBody rest).map (fun p => ('\\' :: p.1, p.2))
    else if e = '/' then (parseStrBody rest).map (fun p => ('/' :: p.1, p.2))
    else if e = 'n' then (parseStrBody rest).map (fun p => ('\n' :: p.1, p.2))
    else if e = 'r' then (parseStrBody rest).map (fun p => ('\r' :: p.1, p.2))
    else if e = 't' then (parseStrBody rest).map (fun p => ('\t' :: p.1, p.2))
    else if e = 'b' then (parseStrBody rest).map (fun p => ('\x08' :: p.1, p.2))
    else if e = 'f' then (parseStrBody rest).map (fun p => ('\x0c' :: p.1, p.2))
    else if e = 'u' then parseU rest
    else none

/-- A `\uXXXX` escape (after the `\u`): a high surrogate hands over to
`parseU2` for its required low-surrogate partner. -/
def parseU : PyStr → Option (PyStr × PyStr)
  | h1 :: h2 :: h3 :: h4 :: rest =>
    match hexVal? h1, hexVal? h2, hexVal? h3, hexVal? h4 with
    | some a, some b, some c, some d =>
      let n := ((a * 16 + b) * 16 + c) * 16 + d
      if 0xd800 ≤ n ∧ n < 0xdc00 then parseU2 n rest
      else if 0xdc00 ≤ n ∧ n < 0xe000 then none
      else (parseStrBody rest).map (fun p => (Char.ofNat n :: p.1, p.2))
    | _, _, _, _ => none
  | _ => none

/-- The low-surrogate half of a pair, recombined with the high half. -/
def parseU2 (hi : Nat) : PyStr → Option (PyStr × PyStr)
  | '\\' :: 'u' :: g1 :: g2 :: g3 :: g4 :: rest2 =>
    match hexVal? g1, hexVal? g2, hexVal? g3, hexVal? g4 with
    | some a, some b, some c, some d =>
      let m := ((a * 16 + b) * 16 + c) * 16 + d
      if 0xdc00 ≤ m ∧ m < 0xe000 then
        (parseStrBody rest2).map
          (fun p => (Char.ofNat (0x10000 + (hi - 0xd800) * 0x400 + (m - 0xdc00)) :: p.1, p.2))
      else none
    | _, _, _, _ => none
  | _ => none

end

/-- Characters a number token may contain. -/
def isNumChar (c : Char) : Bool :=
  c.isDigit || c = '-' || c = '+' || c = '.' || c = 'e' || c = 'E'

/-- Characters a number token may start with. -/
def isNumStart (c : Char) : Bool := c.isDigit || c = '-'

/-- Rebuild a dict from parsed members: a repeated key keeps its first
position and last value, as Python dict insertion does. -/
def jFold (fs : List (PyStr × JVal)) : List (PyStr × JVal) :=
  fs.foldl (fun a kv => dinsert a kv.1 kv.2) []

mutual

/-- One JSON value, with leading whitespace allowed. -/
def parseVal : Nat → PyStr → Option (JVal × PyStr)
  | 0, _ => none
  | fuel + 1, s =>
    match skipWs s with
    | [] => none
    | c :: r =>
      if c = '"' then (parseStrBody r).map (fun p => (JVal.str p.1, p.2))
      else if c = 't' then
        match r with
        | 'r' :: 'u' :: 'e' :: r2 => some (.bool true, r2)
        | _ => none
      else if c = 'f' then
        match r with
        | 'a' :: 'l' :: 's' :: 'e' :: r2 => some (.bool false, r2)
        | _ => none
      else if c = 'n' then
        match r with
        | 'u' :: 'l' :: 'l' :: r2 => some (.null, r2)
        | _ => none
      else if c = '[' then
        if (skipWs r).head? = some ']' then some (.arr [], (skipWs r).tail)
        else (parseElems fuel r).map (fun p => (JVal.arr p.1, p.2))
      else if c = '{' then
        if (skipWs r).head? = some '}' then some (.obj [], (skipWs r).tail)
        else (parseMembers fuel r).map (fun p => (JVal.obj (jFold p.1), p.2))
      else if isNumStart c then
        some (.num (c :: r.takeWhile isNumChar), r.dropWhile isNumChar)
      else none

/-- The comma-separated items of a nonempty array, up to its `]`. -/
def parseElems : Nat → PyStr → Option (List JVal × PyStr)
  | 0, _ => none
  | fuel + 1, s =>
    match parseVal fuel s with
    | none => none
    | some (v, r) =>
      match skipWs r with
      | ',' :: r2 =>
        match parseElems fuel r2 with
        | none => none
        | some (vs, r3) => some (v :: vs, r3)
      | ']' :: r2 => some ([v], r2)
      | _ => none

/-- The comma-separated members of a nonempty object, up to its `}`. -/
def parseMembers : Nat → PyStr → Option (List (PyStr × JVal) × PyStr)
  | 0, _ => none
  | fuel + 1, s =>
    match skipWs s with
    | '"' :: r =>
      match parseStrBody r with
      | none => none
      | some (k, r2) =>
        match skipWs r2 with
        | ':' :: r3 =>
          match parseVal fuel r3 with
          | none => none
          | some (v, r4) =>
            match skipWs r4 with
            | ',' :: r5 =>
              match parseMembers fuel r5 with
              | none => none
              | some (fs, r6) => some ((k, v) :: fs, r6)
            | '}' :: r5 => some ([(k, v)], r5)
            | _ => none
        | _ => none
    | _ => none

end

/-- `json.loads(s)`: one document, nothing but whitespace after it. -/
def loads (s : PyStr) : Option JVal :=
  match parseVal (s.length + 1) s with
  | none => none
  | some (v, rest) => if skipWs rest = [] then some v else none

/-! ## Well-formedness of encoded values

`validV` holds of every value the program can hand to the encoder: number
tokens are nonempty maximal float-repr tokens, and dicts have distinct
keys (a Python dict cannot carry duplicates). -/

/-- A float-repr token: nonempty, starts like a number, number chars only. -/
def validNumTok : PyStr → Bool
  | [] => false
  | c :: rest => isNumStart c && rest.all isNumChar

/-- Distinctness of a dict's key list. -/
def nodupKeys : List PyStr → Bool
  | [] => true
  | k :: rest => !(rest.contains k) && nodupKeys rest

mutual

/-- Values in the image of Python dict/list/str/float data. -/
def validV : JVal → Bool
  | .str _ => true
  | .num t => validNumTok t
  | .bool _ => true
  | .null => true
  | .arr xs => validL xs
  | .obj fs => nodupKeys (jKeys fs) && validF fs

/-- All list elements valid. -/
def validL : List JVal → Bool
  | [] => true
  | x :: xs => validV x && validL xs

/-- All field values valid. -/
def validF : List (PyStr × JVal) → Bool
  | [] => true
  | (_, v) :: fs => validV v && validF fs

end

mutual

/-- Structural size of a value: a fuel bound for the decoder. -/
def jsize : JVal → Nat
  | .str _ => 1
  | .num _ => 1
  | .bool _ => 1
  | .null => 1
  | .arr xs => 1 + jsizeL xs
  | .obj fs => 1 + jsizeF fs

/-- Size of array items. -/
def jsizeL : List JVal → Nat
  | [] => 0
  | x :: xs => 1 + jsize x + jsizeL xs

/-- Size of object members. -/
def jsizeF : List (PyStr × JVal) → Nat
  | [] => 0
  | (_, v) :: fs => 1 + jsize v + jsizeF fs

end

/-! ## Derived notions used in theorem statements -/

/-- The topic a well-formed (colon-bearing) day line contributes:
segment 1 of the colon split, then segment 0 of the hyphen split,
stripped.  Restates `topicOfLine` on the lines where it cannot raise. -/
def wfTopic (line : PyStr) : PyStr :=
  pyStrip ((splitCh '-' ((splitCh ':' line).getD 1 [])).headD [])

/-- The bundle of a topic for which every sub-search failed. -/
def emptyBundle : JVal :=
  .obj [(pys "research", .arr []), (pys "videos", .arr []),
    (pys "tools", .arr []), (pys "stats", .arr [])]

/-- Keys of the success-shaped orchestrator result, in dict order. -/
def successKeys : List PyStr :=
  [pys "trends", pys "strategy", pys "briefs", pys "resources", pys "execution_time"]

instance {ε α : Type} [DecidableEq ε] [DecidableEq α] : DecidableEq (Except ε α) :=
  fun a b =>
    match a, b with
    | .ok x, .ok y =>
      if h : x = y then .isTrue (by rw [h]) else .isFalse (fun hh => by cases hh; exact h rfl)
    | .error x, .error y =>
      if h : x = y then .isTrue (by rw [h]) else .isFalse (fun hh => by cases hh; exact h rfl)
    | .ok _, .error _ => .isFalse (fun hh => by cases hh)
    | .error _, .ok _ => .isFalse (fun hh => by cases hh)

/-! # Helper lemmas -/

theorem splitCh_ne_nil (c : Char) (s : PyStr) : splitCh c s ≠ [] := by
  cases s with
  | nil => simp [splitCh]
  | cons x xs =>
    simp only [splitCh]
    split
    · simp
    · cases h : splitCh c xs <;> simp [h]

theorem splitCh_cons_self (c : Char) (ys : PyStr) : splitCh c (c :: ys) = [] :: splitCh c ys := by
  simp [splitCh]

theorem splitCh_cons_of_ne (c x : Char) (ys : PyStr) (h : x ≠ c) :
    splitCh c (x :: ys) = (x :: (splitCh c ys).headD []) :: (splitCh c ys).tail := by
  simp only [splitCh, if_neg h]
  cases hy : splitCh c ys with
  | nil => exact absurd hy (splitCh_ne_nil c ys)
  | cons p ps => simp

theorem splitCh_append_not_mem (c : Char) (xs ys : PyStr) (h : c ∉ xs) :
    splitCh c (xs ++ ys) = (xs ++ (splitCh c ys).headD []) :: (splitCh c ys).tail := by
  induction xs with
  | nil =>
    cases hy : splitCh c ys with
    | nil => exact absurd hy (splitCh_ne_nil c ys)
    | cons p ps => simp [hy]
  | cons x xs ih =>
    have hx : x ≠ c := fun hh => h (hh ▸ List.mem_cons_self x xs)
    rw [List.cons_append, splitCh_cons_of_ne c x _ hx,
      ih (fun hm => h (List.mem_cons_of_mem _ hm))]
    simp

theorem splitCh_append_sep (c : Char) (xs ys : PyStr) (h : c ∉ xs) :
    splitCh c (xs ++ c :: ys) = xs :: splitCh c ys := by
  rw [splitCh_append_not_mem c xs (c :: ys) h, splitCh_cons_self]
  simp

theorem splitCh_of_not_mem (c : Char) (xs : PyStr) (h : c ∉ xs) : splitCh c xs = [xs] := by
  have h2 := splitCh_append_not_mem c xs [] h
  simpa [splitCh] using h2

theorem dropWhile_all_append (p : Char → Bool) (l s : PyStr) (h : l.all p = true) :
    (l ++ s).dropWhile p = s.dropWhile p := by
  induction l with
  | nil => simp
  | cons x xs ih =>
    simp only [List.all_cons, Bool.and_eq_true] at h
    simp [List.dropWhile_cons, h.1, ih h.2]

theorem pyStrip_ws_left (l s : PyStr) (h : l.all isPyWs = true) :
    pyStrip (l ++ s) = pyStrip s := by
  unfold pyStrip
  rw [dropWhile_all_append isPyWs l s h]

theorem dropWhile_all_nil (p : Char → Bool) (l : PyStr) (h : l.all p = true) :
    l.dropWhile p = [] := by
  induction l with
  | nil => simp
  | cons x xs ih =>
    simp only [List.all_cons, Bool.and_eq_true] at h
    simp [List.dropWhile_cons, h.1, ih h.2]

theorem all_reverse_py (p : Char → Bool) (l : PyStr) (h : l.all p = true) :
    l.reverse.all p = true := by
  simp only [List.all_eq_true] at h ⊢
  exact fun x hx => h x (List.mem_reverse.mp hx)

theorem pyStrip_ws_right (s r : PyStr) (h : r.all isPyWs = true) :
    pyStrip (s ++ r) = pyStrip s := by
  induction s with
  | nil =>
    have h1 : pyStrip r = [] := by
      unfold pyStrip
      rw [dropWhile_all_nil isPyWs r h]
      simp
    have h2 : pyStrip ([] : PyStr) = [] := by decide
    simpa [h2] using h1
  | cons x s ih =>
    by_cases hx : isPyWs x = true
    · have h1 : pyStrip ((x :: s) ++ r) = pyStrip (s ++ r) := by
        unfold pyStrip
        rw [List.cons_append, List.dropWhile_cons, if_pos hx]
      have h2 : pyStrip (x :: s) = pyStrip s := by
        unfold pyStrip
        rw [List.dropWhile_cons, if_pos hx]
      rw [h1, h2, ih]
    · unfold pyStrip
      rw [List.cons_append, List.dropWhile_cons, if_neg hx, List.dropWhile_cons, if_neg hx]
      rw [show (x :: (s ++ r)).reverse = r.reverse ++ (x :: s).reverse by simp]
      rw [dropWhile_all_append isPyWs r.reverse _ (all_reverse_py isPyWs r h)]

theorem pyStartsWith_of_concat (p s t : PyStr) (h : pyStartsWith p s = true) :
    pyStartsWith p (s ++ t) = true := by
  induction p generalizing s with
  | nil => simp [pyStartsWith, List.isPrefixOf]
  | cons x xs ih =>
    cases s with
    | nil => simp [pyStartsWith, List.isPrefixOf] at h
    | cons y ys =>
      simp only [pyStartsWith, List.isPrefixOf, Bool.and_eq_true] at h ⊢
      exact ⟨h.1, ih ys h.2⟩

theorem not_mem_append_py {c : Char} {xs ys : PyStr} (h1 : c ∉ xs) (h2 : c ∉ ys) :
    c ∉ xs ++ ys := by
  simp [List.mem_append]
  exact ⟨h1, h2⟩

/-! ## Topic extractor lemmas -/

theorem splitCh_two_of_mem (c : Char) (line : PyStr) (h : c ∈ line) :
    ∃ p q rest, splitCh c line = p :: q :: rest := by
  induction line with
  | nil => cases h
  | cons x xs ih =>
    by_cases hx : x = c
    · subst hx
      rw [splitCh_cons_self]
      cases hy : splitCh x xs with
      | nil => exact absurd hy (splitCh_ne_nil x xs)
      | cons p ps => exact ⟨[], p, ps, rfl⟩
    · have hm : c ∈ xs := by
        cases List.mem_cons.mp h with
        | inl hh => exact absurd hh.symm hx
        | inr hh => exact hh
      obtain ⟨p, q, rest, hs⟩ := ih hm
      rw [splitCh_cons_of_ne c x xs hx, hs]
      exact ⟨x :: p, q, rest, by simp⟩

theorem topicOfLine_of_colon (line : PyStr) (h : ':' ∈ line) :
    topicOfLine line = .ok (wfTopic line) := by
  obtain ⟨p, q, rest, hs⟩ := splitCh_two_of_mem ':' line h
  unfold topicOfLine wfTopic
  rw [hs]
  simp only [listIdx, List.get?, List.getD, Option.getD]
  cases hy : splitCh '-' q with
  | nil => exact absurd hy (splitCh_ne_nil '-' q)
  | cons p' ps' => simp [listIdx]

theorem topicOfLine_no_colon (line : PyStr) (h : ':' ∉ line) :
    topicOfLine line = .error ⟨"IndexError", pys "list index out of range"⟩ := by
  unfold topicOfLine
  rw [splitCh_of_not_mem ':' line h]
  simp [listIdx]

theorem topicOfLine_split (label body : PyStr) (hlab : ':' ∉ label) (hbody : ':' ∉ body) :
    topicOfLine (label ++ ':' :: body) = .ok (pyStrip ((splitCh '-' body).headD [])) := by
  unfold topicOfLine
  rw [splitCh_append_sep ':' label body hlab, splitCh_of_not_mem ':' body hbody]
  cases hy : splitCh '-' body with
  | nil => exact absurd hy (splitCh_ne_nil '-' body)
  | cons p ps => simp [listIdx, hy]

theorem extractLoop_ok (lines : List PyStr) (acc : List PyStr)
    (h : ∀ line ∈ lines, pyStartsWith (pys "Day") line = true → ':' ∈ line) :
    extractLoop lines acc =
      .ok (acc ++ (lines.filter (fun l => pyStartsWith (pys "Day") l)).map wfTopic) := by
  induction lines generalizing acc with
  | nil => simp [extractLoop]
  | cons l ls ih =>
    by_cases hd : pyStartsWith (pys "Day") l = true
    · rw [extractLoop, if_pos hd, topicOfLine_of_colon l (h l (List.mem_cons_self l ls) hd)]
      show extractLoop ls (acc ++ [wfTopic l]) = _
      rw [ih (acc ++ [wfTopic l]) (fun line hm => h line (List.mem_cons_of_mem l hm))]
      simp [List.filter_cons, hd]
    · rw [extractLoop, if_neg hd, ih acc (fun line hm => h line (List.mem_cons_of_mem l hm))]
      simp [List.filter_cons, hd]

/-! # Claims -/

/-- C1 (corrected): whenever every line that starts with the marker `Day`
contains a colon, extraction processes each of those lines without
raising and returns one topic per day-line, a line missing a hyphen
included: such a line is not skipped but contributes the whole segment
between its first and second colon (trimmed) as its topic.  A `Day` line
with no colon, by contrast, raises an IndexError that aborts extraction
(shown by the counterexample), so the original claim that malformed lines
are skipped while extraction continues does not hold of the code. -/
theorem c1_extract_topics (strategy : PyStr)
    (h : ∀ line ∈ splitCh '\n' strategy, pyStartsWith (pys "Day") line = true → ':' ∈ line) :
    extract_topics strategy =
      .ok (((splitCh '\n' strategy).filter (fun l => pyStartsWith (pys "Day") l)).map wfTopic) := by
  unfold extract_topics
  simpa using extractLoop_ok (splitCh '\n' strategy) [] h

/-- Witness for C1 at a concrete strategy text: both day lines carry a
colon (the second has no hyphen and still contributes its whole
remainder), one noise line is ignored. -/
theorem c1_extract_topics_witness :
    extract_topics (pys "Day 1: Alpha - educational\nDay 2: Beta\nintro line") =
      .ok [pys "Alpha", pys "Beta"] := by
  have h := c1_extract_topics (pys "Day 1: Alpha - educational\nDay 2: Beta\nintro line")
    (by decide)
  exact h.trans (by decide)

/-- Counterexample to C1 as stated: a `Day` line with no colon does not
get skipped; it raises IndexError, so the topics of the remaining
well-formed lines are not returned. -/
theorem c1_counterexample :
    extract_topics (pys "Day one has no colon\nDay 2: Beta - educational") =
        .error ⟨"IndexError", pys "list index out of range"⟩ ∧
      extract_topics (pys "Day one has no colon\nDay 2: Beta - educational") ≠
        .ok [pys "Beta"] := by
  exact ⟨by decide, by decide⟩

/-- C5 (corrected): with a hyphen-less day line interleaved between two
well-formed ones, extraction does not raise and keeps the original
order, but the malformed line is not dropped: it contributes the whole
trimmed segment after its colon as a third topic. -/
theorem c5_malformed_line (a b c : PyStr)
    (ha1 : '\n' ∉ a) (ha2 : ':' ∉ a) (ha3 : '-' ∉ a)
    (hb1 : '\n' ∉ b) (hb2 : ':' ∉ b) (hb3 : '-' ∉ b)
    (hc1 : '\n' ∉ c) (hc2 : ':' ∉ c) (hc3 : '-' ∉ c) :
    extract_topics (pys "Day 1: " ++ a ++ pys " - educational\nDay 2: " ++ b ++
        pys "\nDay 3: " ++ c ++ pys " - promotional") =
      .ok [pyStrip a, pyStrip b, pyStrip c] := by
  have e1 : pys " - educational\nDay 2: " =
      pys " - educational" ++ '\n' :: pys "Day 2: " := by decide
  have e2 : pys "\nDay 3: " = '\n' :: pys "Day 3: " := by decide
  have hS : pys "Day 1: " ++ a ++ pys " - educational\nDay 2: " ++ b ++
      pys "\nDay 3: " ++ c ++ pys " - promotional" =
      (pys "Day 1: " ++ (a ++ pys " - educational")) ++ '\n' ::
        ((pys "Day 2: " ++ b) ++ '\n' ::
          (pys "Day 3: " ++ (c ++ pys " - promotional"))) := by
    rw [e1, e2]
    simp [List.append_assoc]
  rw [hS]
  have hA : '\n' ∉ pys "Day 1: " ++ (a ++ pys " - educational") := by
    refine not_mem_append_py ?_ (not_mem_append_py ha1 ?_) <;> decide
  have hB : '\n' ∉ pys "Day 2: " ++ b := not_mem_append_py (by decide) hb1
  have hC : '\n' ∉ pys "Day 3: " ++ (c ++ pys " - promotional") := by
    refine not_mem_append_py ?_ (not_mem_append_py hc1 ?_) <;> decide
  unfold extract_topics
  rw [splitCh_append_sep '\n' _ _ hA, splitCh_append_sep '\n' _ _ hB,
    splitCh_of_not_mem '\n' _ hC]
  -- each line starts with the marker
  have hdA : pyStartsWith (pys "Day") (pys "Day 1: " ++ (a ++ pys " - educational")) = true :=
    pyStartsWith_of_concat _ _ _ (by decide)
  have hdB : pyStartsWith (pys "Day") (pys "Day 2: " ++ b) = true :=
    pyStartsWith_of_concat _ _ _ (by decide)
  have hdC : pyStartsWith (pys "Day") (pys "Day 3: " ++ (c ++ pys " - promotional")) = true :=
    pyStartsWith_of_concat _ _ _ (by decide)
  -- topic of line 1
  have fA : pys "Day 1: " ++ (a ++ pys " - educational") =
      pys "Day 1" ++ ':' :: (' ' :: (a ++ pys " - educational")) := by
    have f1 : pys "Day 1: " = pys "Day 1" ++ ':' :: [' '] := by decide
    rw [f1]
    simp
  have bodyA : ' ' :: (a ++ pys " - educational") =
      (' ' :: (a ++ [' '])) ++ '-' :: (' ' :: pys "educational") := by
    have f2 : pys " - educational" = ' ' :: '-' :: ' ' :: pys "educational" := by decide
    rw [f2]
    simp
  have hTopicA : topicOfLine (pys "Day 1: " ++ (a ++ pys " - educational")) =
      .ok (pyStrip a) := by
    rw [fA, topicOfLine_split _ _ (by decide) ?hbA]
    case hbA =>
      have : ':' ∉ pys " - educational" := by decide
      simp [List.mem_append]
      exact ⟨fun hh => ha2 hh, fun hh => this hh⟩
    rw [bodyA, splitCh_append_sep '-' _ _ ?huA]
    case huA =>
      have : ('-' : Char) ∉ ([' '] : PyStr) := by decide
      simp [List.mem_append]
      exact fun hh => ha3 hh
    simp only [List.headD_cons]
    rw [show (' ' :: (a ++ [' '])) = [' '] ++ (a ++ [' ']) by simp,
      pyStrip_ws_left [' '] _ (by decide), pyStrip_ws_right a [' '] (by decide)]
  -- topic of line 2
  have fB : pys "Day 2: " ++ b = pys "Day 2" ++ ':' :: (' ' :: b) := by
    have f1 : pys "Day 2: " = pys "Day 2" ++ ':' :: [' '] := by decide
    rw [f1]
    simp
  have hTopicB : topicOfLine (pys "Day 2: " ++ b) = .ok (pyStrip b) := by
    rw [fB, topicOfLine_split _ _ (by decide) ?hbB]
    case hbB =>
      simp
      exact fun hh => hb2 hh
    rw [splitCh_of_not_mem '-' _ ?hnB]
    case hnB =>
      simp
      exact fun hh => hb3 hh
    simp only [List.headD_cons]
    rw [show (' ' :: b) = [' '] ++ b by simp, pyStrip_ws_left [' '] b (by decide)]
  -- topic of line 3
  have fC : pys "Day 3: " ++ (c ++ pys " - promotional") =
      pys "Day 3" ++ ':' :: (' ' :: (c ++ pys " - promotional")) := by
    have f1 : pys "Day 3: " = pys "Day 3" ++ ':' :: [' '] := by decide
    rw [f1]
    simp
  have bodyC : ' ' :: (c ++ pys " - promotional") =
      (' ' :: (c ++ [' '])) ++ '-' :: (' ' :: pys "promotional") := by
    have f2 : pys " - promotional" = ' ' :: '-' :: ' ' :: pys "promotional" := by decide
    rw [f2]
    simp
  have hTopicC : topicOfLine (pys "Day 3: " ++ (c ++ pys " - promotional")) =
      .ok (pyStrip c) := by
    rw [fC, topicOfLine_split _ _ (by decide) ?hbC]
    case hbC =>
      have : ':' ∉ pys " - promotional" := by decide
      simp [List.mem_append]
      exact ⟨fun hh => hc2 hh, fun hh => this hh⟩
    rw [bodyC, splitCh_append_sep '-' _ _ ?huC]
    case huC =>
      simp [List.mem_append]
      exact fun hh => hc3 hh
    simp only [List.headD_cons]
    rw [show (' ' :: (c ++ [' '])) = [' '] ++ (c ++ [' ']) by simp,
      pyStrip_ws_left [' '] _ (by decide), pyStrip_ws_right c [' '] (by decide)]
  simp [extractLoop, hdA, hdB, hdC, hTopicA, hTopicB, hTopicC]

/-- Witness for C5 at concrete topics: the middle line has no hyphen and
contributes `Beta` anyway. -/
theorem c5_malformed_line_witness :
    extract_topics (pys "Day 1: Alpha - educational\nDay 2: Beta\nDay 3: Gamma - promotional") =
      .ok [pys "Alpha", pys "Beta", pys "Gamma"] := by
  have h := c5_malformed_line (pys "Alpha") (pys "Beta") (pys "Gamma")
    (by decide) (by decide) (by decide) (by decide) (by decide) (by decide)
    (by decide) (by decide) (by decide)
  exact h.trans (by decide)

/-- Counterexample to C5 as stated: on the interleaved strategy text the
extractor returns three topics, not the two topics of the well-formed
lines only. -/
theorem c5_counterexample :
    extract_topics (pys "Day 1: Alpha - edu\nDay 2: Beta\nDay 3: Gamma - promo") =
        .ok [pys "Alpha", pys "Beta", pys "Gamma"] ∧
      extract_topics (pys "Day 1: Alpha - edu\nDay 2: Beta\nDay 3: Gamma - promo") ≠
        .ok [pys "Alpha", pys "Gamma"] := by
  exact ⟨by decide, by decide⟩


/-! ## Orchestrator result shape (C2) -/

theorem ccBody_ok_shape (env : Env) (i t g : PyStr) (v : JVal)
    (h : ccBody env i t g = .ok v) :
    ∃ trends strategy briefs resources,
      v = .obj [(pys "trends", trends), (pys "strategy", strategy), (pys "briefs", briefs),
        (pys "resources", .obj resources), (pys "execution_time", .num env.elapsedTok)] := by
  unfold ccBody at h
  repeat' split at h
  all_goals cases h
  exact ⟨_, _, _, _, rfl⟩

/-- C2 (confirmed): every orchestrator run returns a dict in exactly one
of the two variants: the success shape with precisely the five keys
trends, strategy, briefs, resources, execution_time and no error key, or
the failure shape whose only key is error.  No exception escapes: the
try-block result type is total, and its error is always converted into
the error dict. -/
theorem c2_result_variants (env : Env) (industry target_audience content_goals : PyStr) :
    ∃ fs, create_content_calendar env industry target_audience content_goals = .obj fs ∧
      ((jKeys fs = successKeys ∧ pys "error" ∉ jKeys fs) ∨ jKeys fs = [pys "error"]) := by
  unfold create_content_calendar
  cases h : ccBody env industry target_audience content_goals with
  | error e =>
    exact ⟨[(pys "error", .str e.msg)], rfl, Or.inr (by simp [jKeys])⟩
  | ok v =>
    obtain ⟨trends, strategy, briefs, resources, rfl⟩ := ccBody_ok_shape env _ _ _ v h
    refine ⟨_, rfl, Or.inl ⟨?_, ?_⟩⟩
    · simp [jKeys, successKeys]
    · simp only [jKeys, List.map]
      decide

/-! ## Generation adapter response shapes (C3) -/

/-- C3 (corrected): the adapter picks the completion by the priority chain
choices, response, text, content, and fails with the wrapped
unexpected-format error carrying `json.dumps` of the raw response when
none is present — but the first guard checks only that `choices` is a
present nonempty list.  When the nested message content is then missing
the adapter raises the wrapped subscript error instead of falling through
to a present `response`/`text`/`content` field (see the counterexample). -/
theorem c3_generate_content_shapes (fs : List (PyStr × JVal)) (prompt : PyStr) :
    (∀ c0 cs m x, jFind fs (pys "choices") = some (.arr (c0 :: cs)) →
        pySub c0 (pys "message") = .ok m → pySub m (pys "content") = .ok x →
        generate_content (fun _ => .success (.obj fs)) prompt = .ok x) ∧
    (∀ c0 cs e, jFind fs (pys "choices") = some (.arr (c0 :: cs)) →
        pySub c0 (pys "message") = .error e →
        generate_content (fun _ => .success (.obj fs)) prompt =
          .error ⟨"Exception", pys "Error generating content: " ++ e.msg⟩) ∧
    (∀ v, jFind fs (pys "choices") = none → jFind fs (pys "response") = some v →
        generate_content (fun _ => .success (.obj fs)) prompt = .ok v) ∧
    (∀ v, jFind fs (pys "choices") = none → jFind fs (pys "response") = none →
        jFind fs (pys "text") = some v →
        generate_content (fun _ => .success (.obj fs)) prompt = .ok v) ∧
    (∀ v, jFind fs (pys "choices") = none → jFind fs (pys "response") = none →
        jFind fs (pys "text") = none → jFind fs (pys "content") = some v →
        generate_content (fun _ => .success (.obj fs)) prompt = .ok v) ∧
    (jFind fs (pys "choices") = none → jFind fs (pys "response") = none →
        jFind fs (pys "text") = none → jFind fs (pys "content") = none →
        generate_content (fun _ => .success (.obj fs)) prompt =
          .error ⟨"Exception",
            pys "Error generating content: " ++
              (pys "Unexpected API response format: " ++ jdumpC (.obj fs))⟩) := by
  refine ⟨?_, ?_, ?_, ?_, ?_, ?_⟩
  · intro c0 cs m x h1 h2 h3
    have hsub : pySub (JVal.obj fs) (pys "choices") = .ok (.arr (c0 :: cs)) := by
      simp [pySub, h1]
    unfold generate_content extractContent
    simp only [pyIn, h1, Option.isSome_some, if_true]
    simp [hsub, pyLen, pyIdx, h2, h3]
  · intro c0 cs e h1 h2
    have hsub : pySub (JVal.obj fs) (pys "choices") = .ok (.arr (c0 :: cs)) := by
      simp [pySub, h1]
    unfold generate_content extractContent
    simp only [pyIn, h1, Option.isSome_some, if_true]
    simp [hsub, pyLen, pyIdx, h2]
  · intro v h1 h2
    have hsub : pySub (JVal.obj fs) (pys "response") = .ok v := by
      simp [pySub, h2]
    unfold generate_content extractContent extractFallback
    simp [pyIn, h1, h2, hsub]
  · intro v h1 h2 h3
    have hsub : pySub (JVal.obj fs) (pys "text") = .ok v := by
      simp [pySub, h3]
    unfold generate_content extractContent extractFallback
    simp [pyIn, h1, h2, h3, hsub]
  · intro v h1 h2 h3 h4
    have hsub : pySub (JVal.obj fs) (pys "content") = .ok v := by
      simp [pySub, h4]
    unfold generate_content extractContent extractFallback
    simp [pyIn, h1, h2, h3, h4, hsub]
  · intro h1 h2 h3 h4
    unfold generate_content extractContent extractFallback
    simp [pyIn, h1, h2, h3, h4]

/-- Witness for C3: the nested choices shape returns the content exactly,
and a response with none of the four shapes fails with the wrapped
unexpected-format error. -/
theorem c3_generate_content_shapes_witness :
    generate_content (fun _ => .success (.obj [(pys "choices",
        .arr [.obj [(pys "message", .obj [(pys "content", .str (pys "X"))])]])]))
      (pys "p") = .ok (.str (pys "X")) ∧
    generate_content (fun _ => .success (.obj [(pys "other", .null)])) (pys "p") =
      .error ⟨"Exception",
        pys "Error generating content: " ++
          (pys "Unexpected API response format: " ++ jdumpC (.obj [(pys "other", .null)]))⟩ := by
  constructor
  · exact (c3_generate_content_shapes
      [(pys "choices", .arr [.obj [(pys "message", .obj [(pys "content", .str (pys "X"))])]])]
      (pys "p")).1 (JVal.obj [(pys "message", JVal.obj [(pys "content", JVal.str (pys "X"))])])
      [] (JVal.obj [(pys "content", JVal.str (pys "X"))]) (JVal.str (pys "X"))
      (by decide) (by decide) (by decide)
  · exact (c3_generate_content_shapes [(pys "other", .null)] (pys "p")).2.2.2.2.2
      (by decide) (by decide) (by decide) (by decide)

/-- Counterexample to C3 as stated: with `choices = [{}]` (present and
nonempty, but without nested message content) and a present `response`
field, the adapter does not fall through to the `response` shape; it
fails with the wrapped KeyError. -/
theorem c3_counterexample :
    generate_content (fun _ => .success (.obj [(pys "choices", .arr [.obj []]),
        (pys "response", .str (pys "Y"))])) (pys "p") =
      .error ⟨"Exception", pys "Error generating content: \x27message\x27"⟩ ∧
    generate_content (fun _ => .success (.obj [(pys "choices", .arr [.obj []]),
        (pys "response", .str (pys "Y"))])) (pys "p") ≠ .ok (.str (pys "Y")) := by
  exact ⟨by decide, by decide⟩

/-! ## Search adapters degrade to empty lists (C4) -/

theorem search_web_err (serp : SerpParams → Except PyExc JVal)
    (apiKey query search_type : PyStr) (e : PyExc)
    (h : serp (searchParams apiKey query search_type) = .error e) :
    search_web serp apiKey query search_type = .arr [] := by
  simp [search_web, h]

/-- C4 (confirmed): a failing search backend makes search_web return the
empty list, and any transport failure of the image backend makes
search_pixabay return the empty list; both adapters are total, so no
search failure propagates an exception into the pipeline. -/
theorem c4_search_failures :
    (∀ serp apiKey query search_type e,
        serp (searchParams apiKey query search_type) = .error e →
        search_web serp apiKey query search_type = .arr []) ∧
    (∀ backend query count, (∀ b, backend query count ≠ HttpOutcome.success b) →
        search_pixabay backend query count = .arr []) := by
  constructor
  · exact fun serp k q ty e h => search_web_err serp k q ty e h
  · intro backend q c h
    unfold search_pixabay
    cases hb : backend q c with
    | success b => exact absurd hb (h b)
    | connErr => rfl
    | timeoutErr => rfl
    | reqErr s => rfl
    | valueErr s => rfl

/-- Witness for C4 at a raising search backend and a timed-out image
backend. -/
theorem c4_search_failures_witness :
    search_web (fun _ => .error ⟨"Exception", pys "boom"⟩) (pys "k") (pys "q") (pys "scholar") =
        .arr [] ∧
      search_pixabay (fun _ _ => HttpOutcome.timeoutErr) (pys "cats") 3 = .arr [] := by
  constructor
  · exact (c4_search_failures).1 _ _ _ _ _ rfl
  · exact (c4_search_failures).2 _ _ _ (fun b hb => by cases hb)

/-! ## Generation error kinds (C6) -/

/-- C6 (corrected): the three transport failures produce three distinct,
fixed message texts, but all three are raised as the same bare Exception
class, so the only way a caller can tell them apart is the message text
(the counterexample exhibits the shared class). -/
theorem c6_error_kinds (prompt m : PyStr) :
    generate_content (fun _ => .connErr) prompt =
        .error ⟨"Exception",
          pys "Network connection error. Please check your internet connection and try again."⟩ ∧
    generate_content (fun _ => .timeoutErr) prompt =
        .error ⟨"Exception", pys "Request timed out. Please try again."⟩ ∧
    generate_content (fun _ => .reqErr m) prompt =
        .error ⟨"Exception", pys "Error making request: " ++ m⟩ ∧
    pys "Network connection error. Please check your internet connection and try again." ≠
      pys "Request timed out. Please try again." ∧
    pys "Error making request: " ++ m ≠
      pys "Network connection error. Please check your internet connection and try again." ∧
    pys "Error making request: " ++ m ≠ pys "Request timed out. Please try again." := by
  refine ⟨rfl, rfl, rfl, by decide, ?_, ?_⟩
  · intro h
    have h1 : (pys "Error making request: " ++ m).head? = some 'E' := rfl
    rw [h] at h1
    exact absurd h1 (by decide)
  · intro h
    have h1 : (pys "Error making request: " ++ m).head? = some 'E' := rfl
    rw [h] at h1
    exact absurd h1 (by decide)

/-- Counterexample to C6 as stated: at concrete inputs the three failure
kinds all carry the exception class `Exception`; nothing but the message
text distinguishes them, so a caller cannot branch on kind. -/
theorem c6_counterexample :
    generate_content (fun _ => HttpOutcome.connErr) (pys "p") =
        .error ⟨"Exception",
          pys "Network connection error. Please check your internet connection and try again."⟩ ∧
    generate_content (fun _ => HttpOutcome.timeoutErr) (pys "p") =
        .error ⟨"Exception", pys "Request timed out. Please try again."⟩ ∧
    generate_content (fun _ => HttpOutcome.reqErr (pys "x")) (pys "p") =
        .error ⟨"Exception", pys "Error making request: x"⟩ := by
  exact ⟨by decide, by decide, by decide⟩

/-! ## Resilient client retry discipline (C7) -/

/-- C7 (corrected): the session is configured with `total=3`,
`backoff_factor=1` and the forcelist `{500, 502, 503, 504}`; a status in
the forcelist triggers a retry and any other status is returned without
retrying.  But `total=3` means three retries after the initial attempt
(four requests in all): two 503s followed by a 200 succeed, three 503s
followed by a 200 still succeed (the counterexample to the claim as
stated), and only a fourth consecutive retryable status exhausts the
retries and fails with the transport error (requests' RetryError). -/
theorem c7_retry_discipline :
    create_session.total = 3 ∧ create_session.backoff_factor = 1 ∧
    create_session.status_forcelist = [500, 502, 503, 504] ∧
    (∀ backend : Nat → HttpResp, (backend 0).status = 503 → (backend 1).status = 503 →
      (backend 2).status = 200 →
      sessionRequest create_session backend = .ok (backend 2)) ∧
    (∀ backend : Nat → HttpResp, (∀ i, i ≤ 3 → (backend i).status = 503) →
      sessionRequest create_session backend =
        .error ⟨"RetryError", pys "Max retries exceeded with url"⟩) ∧
    (∀ backend : Nat → HttpResp, (backend 0).status ∉ create_session.status_forcelist →
      sessionRequest create_session backend = .ok (backend 0)) := by
  refine ⟨rfl, rfl, rfl, ?_, ?_, ?_⟩
  · intro backend h0 h1 h2
    unfold sessionRequest create_session
    rw [retryLoop]
    simp only [h0]
    norm_num
    rw [retryLoop]
    simp only [h1]
    norm_num
    rw [retryLoop]
    simp only [h2]
    norm_num
  · intro backend h
    unfold sessionRequest create_session
    rw [retryLoop]
    simp only [h 0 (by omega)]
    norm_num
    rw [retryLoop]
    simp only [h 1 (by omega)]
    norm_num
    rw [retryLoop]
    simp only [h 2 (by omega)]
    norm_num
    rw [retryLoop]
    simp only [h 3 (by omega)]
    norm_num
  · intro backend h
    unfold create_session at h
    unfold sessionRequest create_session
    rw [retryLoop]
    simp only []
    rw [if_neg h]

/-- Witness for C7: two 503s then 200 returns the 200 response; an
always-503 backend fails with the transport error; a 404 is returned
without retry. -/
theorem c7_retry_discipline_witness :
    sessionRequest create_session
        (fun n => if n < 2 then ⟨503, JVal.null⟩ else ⟨200, JVal.null⟩) =
      .ok ⟨200, JVal.null⟩ ∧
    sessionRequest create_session (fun _ => ⟨503, JVal.null⟩) =
      .error ⟨"RetryError", pys "Max retries exceeded with url"⟩ ∧
    sessionRequest create_session (fun _ => ⟨404, JVal.null⟩) = .ok ⟨404, JVal.null⟩ := by
  refine ⟨?_, ?_, ?_⟩
  · exact c7_retry_discipline.2.2.2.1
      (fun n => if n < 2 then ⟨503, JVal.null⟩ else ⟨200, JVal.null⟩) rfl rfl rfl
  · exact c7_retry_discipline.2.2.2.2.1 (fun _ => ⟨503, JVal.null⟩) (fun i _ => rfl)
  · exact c7_retry_discipline.2.2.2.2.2 (fun _ => ⟨404, JVal.null⟩) (by decide)

/-- Counterexample to C7 as stated: three consecutive 503s do not exhaust
the retries; a fourth request is made and its 200 response is returned,
not a TransportError. -/
theorem c7_counterexample :
    sessionRequest create_session
        (fun n => if n < 3 then ⟨503, JVal.null⟩ else ⟨200, JVal.null⟩) =
      .ok ⟨200, JVal.null⟩ := by
  rfl

/-! ## Resource bundles always carry the four keys (C8) -/

theorem grt_all_fail (serp : SerpParams → Except PyExc JVal) (apiKey topic : PyStr)
    (hfail : ∀ p, ∃ e, serp p = .error e) :
    generate_resources_for_topic serp apiKey topic = .ok emptyBundle := by
  obtain ⟨e1, he1⟩ :=
    hfail (searchParams apiKey (topic ++ pys " research papers articles") (pys "scholar"))
  obtain ⟨e2, he2⟩ := hfail (searchParams apiKey (topic ++ pys " tutorial guide") (pys "videos"))
  obtain ⟨e3, he3⟩ :=
    hfail (searchParams apiKey (topic ++ pys " tools software applications") (pys "general"))
  obtain ⟨e4, he4⟩ :=
    hfail (searchParams apiKey (topic ++ pys " statistics data facts") (pys "general"))
  unfold generate_resources_for_topic
  rw [search_web_err _ _ _ _ _ he1, search_web_err _ _ _ _ _ he2,
    search_web_err _ _ _ _ _ he3, search_web_err _ _ _ _ _ he4]
  simp [pyListIter, mapExc, emptyBundle]

theorem buildResources_all_fail (env : Env) (hfail : ∀ p, ∃ e, env.serp p = .error e) :
    ∀ (topics : List PyStr) (acc : List (PyStr × JVal)),
      buildResources env topics acc =
        .ok (topics.foldl (fun a t => dinsert a t emptyBundle) acc) := by
  intro topics
  induction topics with
  | nil => intro acc; simp [buildResources]
  | cons t ts ih =>
    intro acc
    rw [buildResources, grt_all_fail env.serp env.serpApiKey t hfail]
    show buildResources env ts (dinsert acc t emptyBundle) = _
    rw [ih (dinsert acc t emptyBundle)]
    simp

/-- C8 (confirmed): a successful bundle always is the dict with exactly
the four keys research, videos, tools, stats in that order, each a list;
when every search fails the bundle is the all-empty one (a failed
sub-search yields an empty list, never a missing key), and the
orchestrator's resource loop still completes, producing one all-empty
bundle per topic. -/
theorem c8_resource_bundle :
    (∀ serp apiKey topic v, generate_resources_for_topic serp apiKey topic = .ok v →
      ∃ research videos tools stats,
        v = .obj [(pys "research", .arr research), (pys "videos", .arr videos),
          (pys "tools", .arr tools), (pys "stats", .arr stats)]) ∧
    (∀ serp apiKey topic, (∀ p, ∃ e, serp p = .error e) →
      generate_resources_for_topic serp apiKey topic = .ok emptyBundle) ∧
    (∀ env : Env, (∀ p, ∃ e, env.serp p = .error e) → ∀ topics acc,
      buildResources env topics acc =
        .ok (topics.foldl (fun a t => dinsert a t emptyBundle) acc)) := by
  refine ⟨?_, fun serp k t h => grt_all_fail serp k t h,
    fun env h topics acc => buildResources_all_fail env h topics acc⟩
  intro serp k t v h
  unfold generate_resources_for_topic at h
  repeat' split at h
  all_goals cases h
  exact ⟨_, _, _, _, rfl⟩

/-- Witness for C8: with a search backend that always raises, topic `X`
gets the bundle with all four keys mapped to empty lists, and a
one-topic resource-gathering loop completes with that bundle. -/
theorem c8_resource_bundle_witness :
    generate_resources_for_topic (fun _ => .error ⟨"Exception", pys "boom"⟩) (pys "key")
        (pys "X") = .ok emptyBundle ∧
    buildResources ⟨fun _ => HttpOutcome.connErr, fun _ => .error ⟨"Exception", pys "boom"⟩,
        pys "key", pys "1.5"⟩ [pys "X"] [] = .ok [(pys "X", emptyBundle)] := by
  constructor
  · exact c8_resource_bundle.2.1 _ _ _ (fun p => ⟨⟨"Exception", pys "boom"⟩, rfl⟩)
  · have h := c8_resource_bundle.2.2 ⟨fun _ => HttpOutcome.connErr,
      fun _ => .error ⟨"Exception", pys "boom"⟩, pys "key", pys "1.5"⟩
      (fun p => ⟨⟨"Exception", pys "boom"⟩, rfl⟩) [pys "X"] []
    exact h.trans (by decide)

/-! ## Resources dict keyed by topic string (C10) -/

theorem jFind_dinsert (fs : List (PyStr × JVal)) (k : PyStr) (v : JVal) (k' : PyStr) :
    jFind (dinsert fs k v) k' = if k' = k then some v else jFind fs k' := by
  induction fs with
  | nil =>
    by_cases h : k' = k
    · subst h; simp [dinsert, jFind]
    · simp only [dinsert, jFind]
      rw [if_neg (fun hh => h hh.symm), if_neg h]
  | cons kv rest ih =>
    obtain ⟨k0, v0⟩ := kv
    by_cases h0 : k0 = k
    · subst h0
      simp only [dinsert, if_pos rfl]
      by_cases h' : k' = k0
      · subst h'; simp [jFind]
      · simp only [jFind]
        rw [if_neg (fun hh => h' hh.symm), if_neg h', if_neg (fun hh => h' hh.symm)]
    · simp only [dinsert, if_neg h0]
      by_cases h' : k0 = k'
      · subst h'
        rw [if_neg (fun hh : k0 = k => h0 hh)]
        simp [jFind]
      · simp only [jFind]
        rw [if_neg h', if_neg h', ih]

theorem mem_jKeys_dinsert (fs : List (PyStr × JVal)) (k : PyStr) (v : JVal) (k' : PyStr) :
    k' ∈ jKeys (dinsert fs k v) ↔ k' ∈ jKeys fs ∨ k' = k := by
  induction fs with
  | nil => simp [dinsert, jKeys]
  | cons kv rest ih =>
    obtain ⟨k0, v0⟩ := kv
    by_cases h : k0 = k
    · subst h
      simp only [dinsert, if_pos rfl, jKeys, List.map, List.mem_cons]
      constructor
      · rintro (h | h)
        · exact Or.inl (Or.inl h)
        · exact Or.inl (Or.inr h)
      · rintro ((h | h) | h)
        · exact Or.inl h
        · exact Or.inr h
        · exact Or.inl h
    · simp only [dinsert, if_neg h, jKeys, List.map, List.mem_cons] at ih ⊢
      rw [ih]
      tauto

theorem nodup_jKeys_dinsert (fs : List (PyStr × JVal)) (k : PyStr) (v : JVal)
    (h : (jKeys fs).Nodup) : (jKeys (dinsert fs k v)).Nodup := by
  induction fs with
  | nil => simp [dinsert, jKeys]
  | cons kv rest ih =>
    obtain ⟨k0, v0⟩ := kv
    simp only [jKeys, List.map, List.nodup_cons] at h
    by_cases h0 : k0 = k
    · subst h0
      simp only [dinsert, if_pos rfl, jKeys, List.map, List.nodup_cons]
      exact h
    · simp only [dinsert, if_neg h0, jKeys, List.map, List.nodup_cons]
      refine ⟨?_, ih h.2⟩
      intro hm
      rcases (mem_jKeys_dinsert rest k v k0).mp hm with hh | hh
      · exact h.1 hh
      · exact h0 hh

theorem buildResources_inv (env : Env) (bundle : PyStr → JVal)
    (hok : ∀ t, generate_resources_for_topic env.serp env.serpApiKey t = .ok (bundle t)) :
    ∀ (topics : List PyStr) (acc : List (PyStr × JVal)), (jKeys acc).Nodup →
      ∃ m, buildResources env topics acc = .ok m ∧ (jKeys m).Nodup ∧
        (∀ t, t ∈ jKeys m ↔ t ∈ jKeys acc ∨ t ∈ topics) ∧
        (∀ t, t ∈ topics → jFind m t = some (bundle t)) ∧
        (∀ t, t ∉ topics → jFind m t = jFind acc t) := by
  intro topics
  induction topics with
  | nil =>
    intro acc hnd
    exact ⟨acc, by simp [buildResources], hnd, by simp, by simp, fun t _ => rfl⟩
  | cons t ts ih =>
    intro acc hnd
    obtain ⟨m, hm, hmnd, hmem, hval, hpres⟩ :=
      ih (dinsert acc t (bundle t)) (nodup_jKeys_dinsert acc t (bundle t) hnd)
    refine ⟨m, ?_, hmnd, ?_, ?_, ?_⟩
    · rw [buildResources, hok t]
      exact hm
    · intro t'
      rw [hmem t', mem_jKeys_dinsert]
      simp only [List.mem_cons]
      tauto
    · intro t' ht'
      rcases List.mem_cons.mp ht' with h | h
      · subst h
        by_cases hts : t' ∈ ts
        · exact hval t' hts
        · rw [hpres t' hts, jFind_dinsert, if_pos rfl]
      · exact hval t' h
    · intro t' ht'
      have h1 : t' ∉ ts := fun hh => ht' (List.mem_cons_of_mem _ hh)
      have h2 : t' ≠ t := fun hh => ht' (hh ▸ List.mem_cons_self t ts)
      rw [hpres t' h1, jFind_dinsert, if_neg h2]

/-- C10 (confirmed): the resources dict of a run is keyed by topic
string with Python dict semantics, so repeated topic strings collapse
into a single entry holding that topic's aggregated bundle; the number
of keys equals the number of distinct extracted topic strings, which can
be strictly fewer than the number of extracted topics. -/
theorem c10_resources_keyed_by_topic (env : Env) (topics : List PyStr)
    (bundle : PyStr → JVal)
    (hok : ∀ t, generate_resources_for_topic env.serp env.serpApiKey t = .ok (bundle t)) :
    ∃ m, buildResources env topics [] = .ok m ∧ (jKeys m).Nodup ∧
      (∀ t, t ∈ jKeys m ↔ t ∈ topics) ∧
      (∀ t, t ∈ topics → jFind m t = some (bundle t)) ∧
      (jKeys m).length = topics.toFinset.card ∧
      (jKeys m).length ≤ topics.length := by
  obtain ⟨m, hm, hnd, hmem, hval, _⟩ :=
    buildResources_inv env bundle hok topics [] (by simp [jKeys])
  have hmem' : ∀ t, t ∈ jKeys m ↔ t ∈ topics := by
    intro t
    rw [hmem t]
    simp [jKeys]
  have hfin : (jKeys m).toFinset = topics.toFinset := by
    ext t
    simp only [List.mem_toFinset]
    exact hmem' t
  have hcard : (jKeys m).length = topics.toFinset.card := by
    rw [← hfin, List.toFinset_card_of_nodup hnd]
  refine ⟨m, hm, hnd, hmem', hval, hcard, ?_⟩
  rw [hcard]
  exact List.toFinset_card_le topics

/-- Witness for C10: the same topic `X` extracted twice yields a
resources dict with two keys, fewer than the three extracted topics. -/
theorem c10_resources_keyed_by_topic_witness :
    ∃ m, buildResources ⟨fun _ => HttpOutcome.connErr,
        fun _ => .error ⟨"Exception", pys "boom"⟩, pys "key", pys "1.5"⟩
        [pys "X", pys "Y", pys "X"] [] = .ok m ∧
      (jKeys m).length = 2 ∧ jFind m (pys "X") = some emptyBundle := by
  obtain ⟨m, hm, _, _, hval, hcard, _⟩ := c10_resources_keyed_by_topic
    ⟨fun _ => HttpOutcome.connErr, fun _ => .error ⟨"Exception", pys "boom"⟩,
      pys "key", pys "1.5"⟩
    [pys "X", pys "Y", pys "X"] (fun _ => emptyBundle)
    (fun t => grt_all_fail _ _ t (fun p => ⟨⟨"Exception", pys "boom"⟩, rfl⟩))
  refine ⟨m, hm, ?_, hval (pys "X") (by decide)⟩
  rw [hcard]
  decide

/-! ## Persistence round trip (C9): auxiliary lemmas -/

theorem skipWs_all_append (ws s : PyStr) (h : ws.all isJsonWs = true) :
    skipWs (ws ++ s) = skipWs s := by
  unfold skipWs
  exact dropWhile_all_append isJsonWs ws s h

theorem skipWs_cons_not (c : Char) (s : PyStr) (h : isJsonWs c = false) :
    skipWs (c :: s) = c :: s := by
  unfold skipWs
  rw [List.dropWhile_cons, if_neg (by simp [h])]

theorem takeWhile_all_append (p : Char → Bool) (l rest : PyStr) (h : l.all p = true)
    (hr : ∀ c, rest.head? = some c → p c = false) :
    (l ++ rest).takeWhile p = l := by
  induction l with
  | nil =>
    cases rest with
    | nil => rfl
    | cons c cs => simp [List.takeWhile_cons, hr c rfl]
  | cons x xs ih =>
    simp only [List.all_cons, Bool.and_eq_true] at h
    simp [List.takeWhile_cons, h.1, ih h.2]

theorem dropWhile_all_append_stop (p : Char → Bool) (l rest : PyStr) (h : l.all p = true)
    (hr : ∀ c, rest.head? = some c → p c = false) :
    (l ++ rest).dropWhile p = rest := by
  induction l with
  | nil =>
    cases rest with
    | nil => rfl
    | cons c cs => simp [List.dropWhile_cons, hr c rfl]
  | cons x xs ih =>
    simp only [List.all_cons, Bool.and_eq_true] at h
    simp [List.dropWhile_cons, h.1, ih h.2]

theorem contains_false_not_mem {l : List PyStr} {k : PyStr} (h : l.contains k = false) :
    k ∉ l := by
  intro hm
  rw [List.contains, List.elem_eq_mem] at h
  simp [hm] at h

theorem indentOf_all_ws (lvl : Nat) : (indentOf lvl).all isJsonWs = true := by
  unfold indentOf
  rw [List.all_eq_true]
  intro c hc
  rw [List.eq_of_mem_replicate hc]
  decide

theorem hexVal_hexDigitCh (d : Nat) (h : d < 16) : hexVal? (hexDigitCh d) = some d := by
  interval_cases d <;> decide

theorem hex4_reconstruct (n : Nat) (h : n < 65536) :
    ((n / 4096 % 16 * 16 + n / 256 % 16) * 16 + n / 16 % 16) * 16 + n % 16 = n := by
  omega

theorem char_range (c : Char) : c.toNat < 0xd800 ∨ (0xdfff < c.toNat ∧ c.toNat < 0x110000) := by
  have h := c.valid
  unfold Nat.isValidChar at h
  rcases h with h | h
  · exact Or.inl h
  · exact Or.inr h

theorem numStart_facts (c : Char) (h : isNumStart c = true) :
    c ≠ '"' ∧ c ≠ 't' ∧ c ≠ 'f' ∧ c ≠ 'n' ∧ c ≠ '[' ∧ c ≠ '{' ∧ c ≠ ']' ∧ c ≠ '}' ∧
      isJsonWs c = false := by
  refine ⟨?_, ?_, ?_, ?_, ?_, ?_, ?_, ?_, ?_⟩
  case _ => intro hh; rw [hh] at h; exact absurd h (by decide)
  case _ => intro hh; rw [hh] at h; exact absurd h (by decide)
  case _ => intro hh; rw [hh] at h; exact absurd h (by decide)
  case _ => intro hh; rw [hh] at h; exact absurd h (by decide)
  case _ => intro hh; rw [hh] at h; exact absurd h (by decide)
  case _ => intro hh; rw [hh] at h; exact absurd h (by decide)
  case _ => intro hh; rw [hh] at h; exact absurd h (by decide)
  case _ => intro hh; rw [hh] at h; exact absurd h (by decide)
  case _ =>
    cases hw : isJsonWs c with
    | false => rfl
    | true =>
      exfalso
      simp only [isJsonWs, Bool.or_eq_true, decide_eq_true_eq] at hw
      rcases hw with ((hc | hc) | hc) | hc <;> (rw [hc] at h; exact absurd h (by decide))

theorem dinsert_append_of_not_mem (fs : List (PyStr × JVal)) (k : PyStr) (v : JVal)
    (h : k ∉ jKeys fs) : dinsert fs k v = fs ++ [(k, v)] := by
  induction fs with
  | nil => rfl
  | cons kv rest ih =>
    obtain ⟨k0, v0⟩ := kv
    simp only [jKeys, List.map, List.mem_cons] at h
    have h0 : k0 ≠ k := fun hh => h (Or.inl hh.symm)
    simp only [dinsert, if_neg h0, List.cons_append]
    rw [ih (fun hm => h (Or.inr hm))]

theorem foldl_dinsert_fresh (fs : List (PyStr × JVal)) :
    ∀ acc, nodupKeys (jKeys fs) = true → (∀ k, k ∈ jKeys fs → k ∉ jKeys acc) →
      List.foldl (fun a kv => dinsert a kv.1 kv.2) acc fs = acc ++ fs := by
  induction fs with
  | nil => intro acc _ _; simp
  | cons kv rest ih =>
    intro acc hnd hdisj
    obtain ⟨k, v⟩ := kv
    simp only [jKeys, List.map, nodupKeys, Bool.and_eq_true, Bool.not_eq_true'] at hnd
    have hkmem : k ∉ jKeys rest := contains_false_not_mem hnd.1
    simp only [List.foldl_cons]
    rw [dinsert_append_of_not_mem acc k v
      (hdisj k (by simp only [jKeys, List.map]; exact List.mem_cons_self k _))]
    rw [ih (acc ++ [(k, v)]) hnd.2 ?_]
    · simp
    · intro k' hk'
      have h1 : k' ∉ jKeys acc := hdisj k'
        (by simp only [jKeys, List.map]; exact List.mem_cons_of_mem _ hk')
      have h2 : k' ≠ k := fun hh => hkmem (hh ▸ hk')
      simp only [jKeys, List.map_append, List.map, List.mem_append]
      rintro (hm | hm)
      · exact h1 hm
      · simp at hm
        exact h2 hm

theorem jFold_eq (fs : List (PyStr × JVal)) (h : nodupKeys (jKeys fs) = true) :
    jFold fs = fs := by
  unfold jFold
  rw [foldl_dinsert_fresh fs [] h (fun k _ => by simp [jKeys])]
  simp

theorem parseU_digits (d1 d2 d3 d4 : Char) (a b c e n : Nat)
    (h1 : hexVal? d1 = some a) (h2 : hexVal? d2 = some b) (h3 : hexVal? d3 = some c)
    (h4 : hexVal? d4 = some e) (hn : ((a * 16 + b) * 16 + c) * 16 + e = n)
    (hs1 : ¬(0xd800 ≤ n ∧ n < 0xdc00)) (hs2 : ¬(0xdc00 ≤ n ∧ n < 0xe000)) (tail : PyStr) :
    parseU (d1 :: d2 :: d3 :: d4 :: tail) =
      (parseStrBody tail).map (fun p => (Char.ofNat n :: p.1, p.2)) := by
  unfold parseU
  rw [h1, h2, h3, h4]
  simp only [hn]
  rw [if_neg hs1, if_neg hs2]

theorem parseU_pair_digits (d1 d2 d3 d4 g1 g2 g3 g4 : Char)
    (a1 b1 c1 e1 a2 b2 c2 e2 hi lo n : Nat)
    (h1 : hexVal? d1 = some a1) (h2 : hexVal? d2 = some b1) (h3 : hexVal? d3 = some c1)
    (h4 : hexVal? d4 = some e1) (h5 : hexVal? g1 = some a2) (h6 : hexVal? g2 = some b2)
    (h7 : hexVal? g3 = some c2) (h8 : hexVal? g4 = some e2)
    (hhi : ((a1 * 16 + b1) * 16 + c1) * 16 + e1 = hi)
    (hlo : ((a2 * 16 + b2) * 16 + c2) * 16 + e2 = lo)
    (hsr : 0xd800 ≤ hi ∧ hi < 0xdc00) (hsl : 0xdc00 ≤ lo ∧ lo < 0xe000)
    (hn : 0x10000 + (hi - 0xd800) * 0x400 + (lo - 0xdc00) = n) (tail : PyStr) :
    parseU (d1 :: d2 :: d3 :: d4 :: '\\' :: 'u' :: g1 :: g2 :: g3 :: g4 :: tail) =
      (parseStrBody tail).map (fun p => (Char.ofNat n :: p.1, p.2)) := by
  unfold parseU
  rw [h1, h2, h3, h4]
  simp only [hhi]
  rw [if_pos hsr]
  unfold parseU2
  simp only []
  rw [h5, h6, h7, h8]
  simp only [hlo]
  rw [if_pos hsl]
  simp only [hn]

theorem parseStrBody_backslash (rest : PyStr) :
    parseStrBody ('\\' :: rest) = parseEsc rest := by
  conv_lhs => unfold parseStrBody
  rw [if_neg (by decide), if_pos rfl]

theorem parseEsc_u (rest : PyStr) :
    parseEsc ('u' :: rest) = parseU rest := by
  conv_lhs => unfold parseEsc
  rw [if_neg (by decide), if_neg (by decide), if_neg (by decide), if_neg (by decide),
    if_neg (by decide), if_neg (by decide), if_neg (by decide), if_neg (by decide),
    if_pos rfl]

theorem parseStrBody_plain (c : Char) (rest : PyStr) (h1 : c ≠ '"') (h2 : c ≠ '\\') :
    parseStrBody (c :: rest) = (parseStrBody rest).map (fun p => (c :: p.1, p.2)) := by
  conv_lhs => unfold parseStrBody
  rw [if_neg h1, if_neg h2]

theorem escRT (c : Char) (tail : PyStr) :
    parseStrBody (escChar c ++ tail) = (parseStrBody tail).map (fun p => (c :: p.1, p.2)) := by
  by_cases h1 : c = '"'
  · subst h1; simp [escChar, parseStrBody, parseEsc]
  by_cases h2 : c = '\\'
  · subst h2; simp [escChar, parseStrBody, parseEsc]
  by_cases h3 : c = '\n'
  · subst h3; simp [escChar, parseStrBody, parseEsc]
  by_cases h4 : c = '\r'
  · subst h4; simp [escChar, parseStrBody, parseEsc]
  by_cases h5 : c = '\t'
  · subst h5; simp [escChar, parseStrBody, parseEsc]
  by_cases h6 : c.toNat = 8
  · have hc : c = '\x08' := by rw [← Char.ofNat_toNat c, h6]
    subst hc
    simp [escChar, parseStrBody, parseEsc]
  by_cases h7 : c.toNat = 12
  · have hc : c = '\x0c' := by rw [← Char.ofNat_toNat c, h7]
    subst hc
    simp [escChar, parseStrBody, parseEsc]
  have hesc0 : ∀ m : Nat, escChar c = uEsc m → parseStrBody (uEsc m ++ tail) =
      parseStrBody (escChar c ++ tail) := by
    intro m hm; rw [hm]
  by_cases h8 : c.toNat < 0x20
  · have hesc : escChar c = uEsc c.toNat := by
      unfold escChar
      rw [if_neg h1, if_neg h2, if_neg h3, if_neg h4, if_neg h5, if_neg h6, if_neg h7,
        if_pos h8]
    rw [hesc]
    unfold uEsc
    simp only [List.cons_append, List.nil_append]
    rw [parseStrBody_backslash, parseEsc_u]
    rw [parseU_digits _ _ _ _ _ _ _ _ c.toNat
      (hexVal_hexDigitCh _ (by omega)) (hexVal_hexDigitCh _ (by omega))
      (hexVal_hexDigitCh _ (by omega)) (hexVal_hexDigitCh _ (by omega))
      (hex4_reconstruct c.toNat (by omega)) (by omega) (by omega) tail]
    rw [Char.ofNat_toNat]
  by_cases h9 : c.toNat < 0x7f
  · have hesc : escChar c = [c] := by
      unfold escChar
      rw [if_neg h1, if_neg h2, if_neg h3, if_neg h4, if_neg h5, if_neg h6, if_neg h7,
        if_neg h8, if_pos h9]
    rw [hesc]
    show parseStrBody (c :: tail) = _
    rw [parseStrBody_plain c tail h1 h2]
  by_cases h10 : c.toNat < 0x10000
  · have hesc : escChar c = uEsc c.toNat := by
      unfold escChar
      rw [if_neg h1, if_neg h2, if_neg h3, if_neg h4, if_neg h5, if_neg h6, if_neg h7,
        if_neg h8, if_neg h9, if_pos h10]
    have hrange := char_range c
    rw [hesc]
    unfold uEsc
    simp only [List.cons_append, List.nil_append]
    rw [parseStrBody_backslash, parseEsc_u]
    rw [parseU_digits _ _ _ _ _ _ _ _ c.toNat
      (hexVal_hexDigitCh _ (by omega)) (hexVal_hexDigitCh _ (by omega))
      (hexVal_hexDigitCh _ (by omega)) (hexVal_hexDigitCh _ (by omega))
      (hex4_reconstruct c.toNat (by omega)) (by omega) (by omega) tail]
    rw [Char.ofNat_toNat]
  · have hesc : escChar c =
        uEsc (0xd800 + (c.toNat - 0x10000) / 0x400) ++
          uEsc (0xdc00 + (c.toNat - 0x10000) % 0x400) := by
      unfold escChar
      rw [if_neg h1, if_neg h2, if_neg h3, if_neg h4, if_neg h5, if_neg h6, if_neg h7,
        if_neg h8, if_neg h9, if_neg h10]
    have hrange := char_range c
    have hq : (c.toNat - 0x10000) / 0x400 < 0x400 := by omega
    rw [hesc]
    unfold uEsc
    simp only [List.cons_append, List.nil_append, List.append_assoc]
    rw [parseStrBody_backslash, parseEsc_u]
    rw [parseU_pair_digits _ _ _ _ _ _ _ _ _ _ _ _ _ _ _ _
      (0xd800 + (c.toNat - 0x10000) / 0x400) (0xdc00 + (c.toNat - 0x10000) % 0x400) c.toNat
      (hexVal_hexDigitCh _ (by omega)) (hexVal_hexDigitCh _ (by omega))
      (hexVal_hexDigitCh _ (by omega)) (hexVal_hexDigitCh _ (by omega))
      (hexVal_hexDigitCh _ (by omega)) (hexVal_hexDigitCh _ (by omega))
      (hexVal_hexDigitCh _ (by omega)) (hexVal_hexDigitCh _ (by omega))
      (hex4_reconstruct _ (by omega)) (hex4_reconstruct _ (by omega))
      (by omega) (by omega) (by omega) tail]
    rw [Char.ofNat_toNat]

theorem strRT (s : PyStr) (rest : PyStr) :
    parseStrBody ((s.map escChar).flatten ++ '"' :: rest) = some (s, rest) := by
  induction s with
  | nil =>
    show parseStrBody ('"' :: rest) = some ([], rest)
    unfold parseStrBody
    rw [if_pos rfl]
  | cons c cs ih =>
    simp only [List.map, List.flatten_cons, List.append_assoc]
    rw [escRT c _, ih]
    rfl

theorem jsize_pos (v : JVal) : 1 ≤ jsize v := by
  cases v <;> simp [jsize]

theorem parseVal_ws (fuel : Nat) (ws s : PyStr) (h : ws.all isJsonWs = true) :
    parseVal fuel (ws ++ s) = parseVal fuel s := by
  cases fuel with
  | zero => rfl
  | succ n =>
    conv_lhs => unfold parseVal
    conv_rhs => unfold parseVal
    rw [skipWs_all_append ws s h]

theorem parseElems_ws (fuel : Nat) (ws s : PyStr) (h : ws.all isJsonWs = true) :
    parseElems fuel (ws ++ s) = parseElems fuel s := by
  cases fuel with
  | zero => rfl
  | succ n =>
    conv_lhs => unfold parseElems
    conv_rhs => unfold parseElems
    rw [parseVal_ws n ws s h]

theorem parseMembers_ws (fuel : Nat) (ws s : PyStr) (h : ws.all isJsonWs = true) :
    parseMembers fuel (ws ++ s) = parseMembers fuel s := by
  cases fuel with
  | zero => rfl
  | succ n =>
    conv_lhs => unfold parseMembers
    conv_rhs => unfold parseMembers
    rw [skipWs_all_append ws s h]

theorem parseVal_quote (n : Nat) (r : PyStr) :
    parseVal (n + 1) ('"' :: r) = (parseStrBody r).map (fun p => (JVal.str p.1, p.2)) := by
  conv_lhs => unfold parseVal
  rw [skipWs_cons_not _ _ (by decide)]
  simp

theorem parseVal_true (n : Nat) (r : PyStr) :
    parseVal (n + 1) ('t' :: 'r' :: 'u' :: 'e' :: r) = some (.bool true, r) := by
  conv_lhs => unfold parseVal
  rw [skipWs_cons_not _ _ (by decide)]
  simp

theorem parseVal_false (n : Nat) (r : PyStr) :
    parseVal (n + 1) ('f' :: 'a' :: 'l' :: 's' :: 'e' :: r) = some (.bool false, r) := by
  conv_lhs => unfold parseVal
  rw [skipWs_cons_not _ _ (by decide)]
  simp

theorem parseVal_null (n : Nat) (r : PyStr) :
    parseVal (n + 1) ('n' :: 'u' :: 'l' :: 'l' :: r) = some (.null, r) := by
  conv_lhs => unfold parseVal
  rw [skipWs_cons_not _ _ (by decide)]
  simp

theorem parseVal_lbrack (n : Nat) (r : PyStr) :
    parseVal (n + 1) ('[' :: r) =
      if (skipWs r).head? = some ']' then some (.arr [], (skipWs r).tail)
      else (parseElems n r).map (fun p => (JVal.arr p.1, p.2)) := by
  conv_lhs => unfold parseVal
  rw [skipWs_cons_not _ _ (by decide)]
  simp

theorem parseVal_lbrace (n : Nat) (r : PyStr) :
    parseVal (n + 1) ('{' :: r) =
      if (skipWs r).head? = some '}' then some (.obj [], (skipWs r).tail)
      else (parseMembers n r).map (fun p => (JVal.obj (jFold p.1), p.2)) := by
  conv_lhs => unfold parseVal
  rw [skipWs_cons_not _ _ (by decide)]
  simp

theorem parseVal_num (n : Nat) (c : Char) (r : PyStr) (h : isNumStart c = true) :
    parseVal (n + 1) (c :: r) =
      some (.num (c :: r.takeWhile isNumChar), r.dropWhile isNumChar) := by
  obtain ⟨f1, f2, f3, f4, f5, f6, f7, f8, f9⟩ := numStart_facts c h
  conv_lhs => unfold parseVal
  rw [skipWs_cons_not _ _ f9]
  simp only []
  rw [if_neg f1, if_neg f2, if_neg f3, if_neg f4, if_neg f5, if_neg f6, if_pos h]

theorem jdump_head (lvl : Nat) (v : JVal) (hv : validV v = true) :
    ∃ c r, jdump lvl v = c :: r ∧ isJsonWs c = false ∧ c ≠ ']' ∧ c ≠ '}' := by
  cases v with
  | str s =>
    exact ⟨'"', (s.map escChar).flatten ++ ['"'], by simp [jdump, dumpStr], by decide,
      by decide, by decide⟩
  | num t =>
    cases t with
    | nil => exact absurd hv (by simp [validV, validNumTok])
    | cons c rest =>
      have hns : isNumStart c = true := by
        simp only [validV, validNumTok, Bool.and_eq_true] at hv
        exact hv.1
      obtain ⟨f1, f2, f3, f4, f5, f6, f7, f8, f9⟩ := numStart_facts c hns
      exact ⟨c, rest, by simp [jdump], f9, f7, f8⟩
  | bool b =>
    cases b with
    | true => exact ⟨'t', pys "rue", by simp [jdump]; decide, by decide, by decide, by decide⟩
    | false => exact ⟨'f', pys "alse", by simp [jdump]; decide, by decide, by decide, by decide⟩
  | null => exact ⟨'n', pys "ull", by simp [jdump]; decide, by decide, by decide, by decide⟩
  | arr xs =>
    cases xs with
    | nil => exact ⟨'[', [']'], by simp [jdump], by decide, by decide, by decide⟩
    | cons x xs =>
      exact ⟨'[', '\n' :: jdumpItems (lvl + 1) (x :: xs) ++ '\n' :: indentOf lvl ++ [']'],
        by simp [jdump], by decide, by decide, by decide⟩
  | obj fs =>
    cases fs with
    | nil => exact ⟨'{', ['}'], by simp [jdump], by decide, by decide, by decide⟩
    | cons f fs =>
      exact ⟨'{', '\n' :: jdumpFields (lvl + 1) (f :: fs) ++ '\n' :: indentOf lvl ++ ['}'],
        by simp [jdump], by decide, by decide, by decide⟩

theorem indentOf_length (lvl : Nat) : (indentOf lvl).length = 4 * lvl := by
  simp [indentOf]

theorem jdumpItems_eq (lvl : Nat) (x : JVal) (xs : List JVal) :
    jdumpItems lvl (x :: xs) = indentOf lvl ++ (jdump lvl x ++ (match xs with
      | [] => ([] : PyStr)
      | y :: ys => ',' :: '\n' :: jdumpItems lvl (y :: ys))) := by
  cases xs <;> simp [jdumpItems]

theorem jdumpFields_eq (lvl : Nat) (k : PyStr) (v : JVal) (fs : List (PyStr × JVal)) :
    jdumpFields lvl ((k, v) :: fs) = indentOf lvl ++ (dumpStr k ++ ':' :: ' ' ::
      (jdump lvl v ++ (match fs with
        | [] => ([] : PyStr)
        | f :: fs' => ',' :: '\n' :: jdumpFields lvl (f :: fs')))) := by
  cases fs <;> simp [jdumpFields]

theorem jdump_length_all : ∀ n : Nat,
    (∀ v, jsize v ≤ n → validV v = true → ∀ lvl, jsize v ≤ (jdump lvl v).length) ∧
    (∀ x xs, jsizeL (x :: xs) ≤ n → validL (x :: xs) = true → ∀ lvl, 1 ≤ lvl →
      jsizeL (x :: xs) ≤ (jdumpItems lvl (x :: xs)).length) ∧
    (∀ kv fs, jsizeF (kv :: fs) ≤ n → validF (kv :: fs) = true → ∀ lvl, 1 ≤ lvl →
      jsizeF (kv :: fs) ≤ (jdumpFields lvl (kv :: fs)).length) := by
  intro n
  induction n using Nat.strong_induction_on with
  | _ n ih =>
    cases n with
    | zero =>
      refine ⟨?_, ?_, ?_⟩
      · intro v hs _ _
        exfalso
        have := jsize_pos v
        omega
      · intro x xs hs _ _ _
        exfalso
        simp [jsizeL] at hs
      · intro kv fs hs _ _ _
        exfalso
        obtain ⟨k, v⟩ := kv
        simp [jsizeF] at hs
    | succ n =>
      obtain ⟨ihP, ihQ, ihR⟩ := ih n (by omega)
      refine ⟨?_, ?_, ?_⟩
      · intro v hs hv lvl
        cases v with
        | str s => simp [jdump, dumpStr, jsize]
        | num t =>
          cases t with
          | nil => exact absurd hv (by simp [validV, validNumTok])
          | cons c rest => simp [jdump, jsize]
        | bool b => cases b <;> simp [jdump, jsize, pys]
        | null => simp [jdump, jsize, pys]
        | arr xs =>
          cases xs with
          | nil => simp [jdump, jsize, jsizeL]
          | cons x xs =>
            have hL : jsizeL (x :: xs) ≤ (jdumpItems (lvl + 1) (x :: xs)).length := by
              refine ihQ x xs ?_ ?_ (lvl + 1) (by omega)
              · simp [jsize] at hs; omega
              · simpa [validV] using hv
            simp only [jdump, jsize, List.length_cons, List.length_append]
            omega
        | obj fs =>
          cases fs with
          | nil => simp [jdump, jsize, jsizeF]
          | cons f fs =>
            have hF : jsizeF (f :: fs) ≤ (jdumpFields (lvl + 1) (f :: fs)).length := by
              refine ihR f fs ?_ ?_ (lvl + 1) (by omega)
              · simp [jsize] at hs; omega
              · simp only [validV, Bool.and_eq_true] at hv
                exact hv.2
            simp only [jdump, jsize, List.length_cons, List.length_append]
            omega
      · intro x xs hs hval lvl hlvl
        simp only [validL, Bool.and_eq_true] at hval
        have hx : jsize x ≤ (jdump lvl x).length := by
          refine ihP x ?_ hval.1 lvl
          simp [jsizeL] at hs; omega
        cases xs with
        | nil =>
          simp only [jdumpItems, jsizeL, List.length_append, indentOf_length]
          omega
        | cons y ys =>
          have hys : jsizeL (y :: ys) ≤ (jdumpItems lvl (y :: ys)).length := by
            refine ihQ y ys ?_ hval.2 lvl hlvl
            simp [jsizeL] at hs ⊢; omega
          simp only [jdumpItems, jsizeL, List.length_append, List.length_cons,
            indentOf_length] at hys ⊢
          omega
      · intro kv fs hs hval lvl hlvl
        obtain ⟨k, v⟩ := kv
        simp only [validF, Bool.and_eq_true] at hval
        have hx : jsize v ≤ (jdump lvl v).length := by
          refine ihP v ?_ hval.1 lvl
          simp [jsizeF] at hs; omega
        cases fs with
        | nil =>
          simp only [jdumpFields, jsizeF, List.length_append, List.length_cons,
            indentOf_length]
          omega
        | cons f fs2 =>
          have hfs : jsizeF (f :: fs2) ≤ (jdumpFields lvl (f :: fs2)).length := by
            refine ihR f fs2 ?_ hval.2 lvl hlvl
            obtain ⟨k2, v2⟩ := f
            simp [jsizeF] at hs ⊢
            omega
          simp only [jdumpFields, jsizeF, List.length_append, List.length_cons,
            indentOf_length] at hfs ⊢
          omega

theorem skipWs_items_head (lvl : Nat) (x : JVal) (xs : List JVal) (T : PyStr)
    (hx : validV x = true) :
    ∃ c0 r0, skipWs ('\n' :: (jdumpItems lvl (x :: xs) ++ T)) = c0 :: r0 ∧
      isJsonWs c0 = false ∧ c0 ≠ ']' ∧ c0 ≠ '}' := by
  obtain ⟨c0, r0, hc0, hws, hrb, hrc⟩ := jdump_head lvl x hx
  cases xs with
  | nil =>
    refine ⟨c0, r0 ++ T, ?_, hws, hrb, hrc⟩
    rw [show ('\n' :: (jdumpItems lvl [x] ++ T)) =
      ['\n'] ++ (indentOf lvl ++ (jdump lvl x ++ T)) from by simp [jdumpItems]]
    rw [skipWs_all_append _ _ (by decide), skipWs_all_append _ _ (indentOf_all_ws lvl), hc0]
    rw [List.cons_append, skipWs_cons_not _ _ hws]
  | cons y ys =>
    refine ⟨c0, r0 ++ (',' :: '\n' :: jdumpItems lvl (y :: ys) ++ T), ?_, hws, hrb, hrc⟩
    rw [show ('\n' :: (jdumpItems lvl (x :: y :: ys) ++ T)) =
      ['\n'] ++ (indentOf lvl ++ (jdump lvl x ++ (',' :: '\n' :: jdumpItems lvl (y :: ys) ++ T)))
      from by simp [jdumpItems]]
    rw [skipWs_all_append _ _ (by decide), skipWs_all_append _ _ (indentOf_all_ws lvl), hc0]
    rw [List.cons_append, skipWs_cons_not _ _ hws]

theorem jdumpFields_head (lvl : Nat) (k : PyStr) (v : JVal) (fs : List (PyStr × JVal)) :
    ∃ r0, jdumpFields lvl ((k, v) :: fs) = indentOf lvl ++ ('"' :: r0) := by
  cases fs with
  | nil => exact ⟨(k.map escChar).flatten ++ ('"' :: (':' :: ' ' :: jdump lvl v)),
      by simp [jdumpFields, dumpStr]⟩
  | cons f fs' => exact ⟨(k.map escChar).flatten ++ ('"' :: (':' :: ' ' :: (jdump lvl v ++
      ',' :: '\n' :: jdumpFields lvl (f :: fs')))),
      by simp [jdumpFields, dumpStr]⟩

theorem parse_jdump : ∀ fuel : Nat,
    (∀ v, jsize v ≤ fuel → validV v = true → ∀ lvl rest,
      (∀ c, rest.head? = some c → isNumChar c = false) →
      parseVal fuel (jdump lvl v ++ rest) = some (v, rest)) ∧
    (∀ x xs, jsizeL (x :: xs) ≤ fuel → validL (x :: xs) = true → ∀ lvl pad rest,
      pad.all isJsonWs = true →
      parseElems fuel (jdumpItems lvl (x :: xs) ++ '\n' :: pad ++ ']' :: rest) =
        some (x :: xs, rest)) ∧
    (∀ kv fs, jsizeF (kv :: fs) ≤ fuel → validF (kv :: fs) = true → ∀ lvl pad rest,
      pad.all isJsonWs = true →
      parseMembers fuel (jdumpFields lvl (kv :: fs) ++ '\n' :: pad ++ '}' :: rest) =
        some (kv :: fs, rest)) := by
  intro fuel
  induction fuel using Nat.strong_induction_on with
  | _ fuel ih =>
    cases fuel with
    | zero =>
      refine ⟨?_, ?_, ?_⟩
      · intro v hs _ _ _ _
        exfalso
        have := jsize_pos v
        omega
      · intro x xs hs _ _ _ _ _
        exfalso
        simp [jsizeL] at hs
      · intro kv fs hs _ _ _ _ _
        exfalso
        obtain ⟨k, v⟩ := kv
        simp [jsizeF] at hs
    | succ n =>
      obtain ⟨ihP, ihQ, ihR⟩ := ih n (by omega)
      refine ⟨?_, ?_, ?_⟩
      -- P: single values
      · intro v hs hv lvl rest hrest
        cases v with
        | str s =>
          rw [show jdump lvl (JVal.str s) ++ rest =
            '"' :: ((s.map escChar).flatten ++ ('"' :: rest)) from by simp [jdump, dumpStr]]
          rw [parseVal_quote, strRT]
          rfl
        | num t =>
          cases t with
          | nil => exact absurd hv (by simp [validV, validNumTok])
          | cons c t' =>
            simp only [validV, validNumTok, Bool.and_eq_true] at hv
            rw [show jdump lvl (JVal.num (c :: t')) ++ rest = c :: (t' ++ rest) from
              by simp [jdump]]
            rw [parseVal_num n c _ hv.1]
            rw [takeWhile_all_append isNumChar t' rest hv.2 hrest,
              dropWhile_all_append_stop isNumChar t' rest hv.2 hrest]
        | bool b =>
          cases b with
          | true =>
            rw [show jdump lvl (JVal.bool true) ++ rest =
              't' :: 'r' :: 'u' :: 'e' :: rest from rfl]
            rw [parseVal_true]
          | false =>
            rw [show jdump lvl (JVal.bool false) ++ rest =
              'f' :: 'a' :: 'l' :: 's' :: 'e' :: rest from rfl]
            rw [parseVal_false]
        | null =>
          rw [show jdump lvl JVal.null ++ rest = 'n' :: 'u' :: 'l' :: 'l' :: rest from rfl]
          rw [parseVal_null]
        | arr xs =>
          cases xs with
          | nil =>
            rw [show jdump lvl (JVal.arr []) ++ rest = '[' :: (']' :: rest) from rfl]
            rw [parseVal_lbrack, skipWs_cons_not _ _ (by decide)]
            simp
          | cons x xs =>
            have hvl : validL (x :: xs) = true := by simpa [validV] using hv
            have hvx2 : validV x = true := by
              have h := hvl
              simp only [validL, Bool.and_eq_true] at h
              exact h.1
            rw [show jdump lvl (JVal.arr (x :: xs)) ++ rest =
              '[' :: ('\n' :: (jdumpItems (lvl + 1) (x :: xs) ++
                ('\n' :: (indentOf lvl ++ (']' :: rest))))) from by simp [jdump]]
            rw [parseVal_lbrack]
            obtain ⟨c0, r0, hc0, hws, hrb, hrc⟩ :=
              skipWs_items_head (lvl + 1) x xs ('\n' :: (indentOf lvl ++ (']' :: rest))) hvx2
            rw [hc0]
            rw [if_neg (by simp [hrb])]
            rw [show ('\n' :: (jdumpItems (lvl + 1) (x :: xs) ++
                ('\n' :: (indentOf lvl ++ (']' :: rest)))) : PyStr) =
              ['\n'] ++ (jdumpItems (lvl + 1) (x :: xs) ++
                ('\n' :: (indentOf lvl ++ (']' :: rest)))) from by simp]
            rw [parseElems_ws n _ _ (by decide)]
            rw [show (jdumpItems (lvl + 1) (x :: xs) ++
                ('\n' :: (indentOf lvl ++ (']' :: rest))) : PyStr) =
              jdumpItems (lvl + 1) (x :: xs) ++ '\n' :: indentOf lvl ++ ']' :: rest
              from by simp]
            rw [ihQ x xs (by simp [jsize] at hs; omega) hvl (lvl + 1) (indentOf lvl) rest
              (indentOf_all_ws lvl)]
            rfl
        | obj fs =>
          cases fs with
          | nil =>
            rw [show jdump lvl (JVal.obj []) ++ rest = '{' :: ('}' :: rest) from rfl]
            rw [parseVal_lbrace, skipWs_cons_not _ _ (by decide)]
            simp [jFold]
          | cons f fs =>
            obtain ⟨k, v⟩ := f
            have hv2 := hv
            simp only [validV, Bool.and_eq_true] at hv2
            have hvf : validF ((k, v) :: fs) = true := hv2.2
            rw [show jdump lvl (JVal.obj ((k, v) :: fs)) ++ rest =
              '\x7b' :: ('\n' :: (jdumpFields (lvl + 1) ((k, v) :: fs) ++
                ('\n' :: (indentOf lvl ++ ('\x7d' :: rest))))) from by simp [jdump]]
            rw [parseVal_lbrace]
            obtain ⟨r0, hr0⟩ := jdumpFields_head (lvl + 1) k v fs
            have hskip : skipWs ('\n' :: (jdumpFields (lvl + 1) ((k, v) :: fs) ++
                ('\n' :: (indentOf lvl ++ ('\x7d' :: rest))))) =
                '"' :: (r0 ++ ('\n' :: (indentOf lvl ++ ('\x7d' :: rest)))) := by
              rw [hr0]
              rw [show ('\n' :: ((indentOf (lvl + 1) ++ ('"' :: r0)) ++
                  ('\n' :: (indentOf lvl ++ ('\x7d' :: rest)))) : PyStr) =
                ['\n'] ++ (indentOf (lvl + 1) ++ ('"' :: (r0 ++
                  ('\n' :: (indentOf lvl ++ ('\x7d' :: rest)))))) from by simp]
              rw [skipWs_all_append _ _ (by decide),
                skipWs_all_append _ _ (indentOf_all_ws (lvl + 1)),
                skipWs_cons_not _ _ (by decide)]
            rw [hskip, if_neg (by simp)]
            rw [show ('\n' :: (jdumpFields (lvl + 1) ((k, v) :: fs) ++
                ('\n' :: (indentOf lvl ++ ('\x7d' :: rest)))) : PyStr) =
              ['\n'] ++ (jdumpFields (lvl + 1) ((k, v) :: fs) ++
                ('\n' :: (indentOf lvl ++ ('\x7d' :: rest)))) from by simp]
            rw [parseMembers_ws n _ _ (by decide)]
            rw [show (jdumpFields (lvl + 1) ((k, v) :: fs) ++
                ('\n' :: (indentOf lvl ++ ('\x7d' :: rest))) : PyStr) =
              jdumpFields (lvl + 1) ((k, v) :: fs) ++ '\n' :: indentOf lvl ++ '\x7d' :: rest
              from by simp]
            rw [ihR (k, v) fs (by simp [jsize] at hs; omega) hvf (lvl + 1) (indentOf lvl) rest
              (indentOf_all_ws lvl)]
            rw [show ((some (((k, v) :: fs : List (PyStr × JVal)), rest)).map
                (fun p => (JVal.obj (jFold p.1), p.2))) =
              some (JVal.obj (jFold ((k, v) :: fs)), rest) from rfl]
            rw [jFold_eq _ hv2.1]
      -- Q: array items
      · intro x xs hs hval lvl pad rest hpad
        have hvx : validV x = true := by
          simp only [validL, Bool.and_eq_true] at hval
          exact hval.1
        cases xs with
        | nil =>
          conv_lhs => unfold parseElems
          rw [show jdumpItems lvl [x] ++ '\n' :: pad ++ ']' :: rest =
            indentOf lvl ++ (jdump lvl x ++ ('\n' :: pad ++ ']' :: rest)) from
            by simp [jdumpItems]]
          rw [parseVal_ws _ _ _ (indentOf_all_ws lvl)]
          rw [ihP x (by simp [jsizeL] at hs; omega) hvx lvl ('\n' :: pad ++ ']' :: rest)
            (by intro c hc; simp at hc; rw [← hc]; decide)]
          simp only []
          rw [show ('\n' :: pad ++ ']' :: rest : PyStr) =
            ('\n' :: pad) ++ (']' :: rest) from by simp]
          rw [skipWs_all_append _ _ (by rw [List.all_cons, hpad]; decide),
            skipWs_cons_not _ _ (by decide)]
          rfl
        | cons y ys =>
          have hvl2 : validL (y :: ys) = true := by
            simp only [validL, Bool.and_eq_true] at hval ⊢
            exact hval.2
          conv_lhs => unfold parseElems
          rw [show jdumpItems lvl (x :: y :: ys) ++ '\n' :: pad ++ ']' :: rest =
            indentOf lvl ++ (jdump lvl x ++ (',' :: ('\n' :: (jdumpItems lvl (y :: ys) ++
              '\n' :: pad ++ ']' :: rest)))) from by simp [jdumpItems]]
          rw [parseVal_ws _ _ _ (indentOf_all_ws lvl)]
          rw [ihP x (by simp [jsizeL] at hs; omega) hvx lvl
            (',' :: ('\n' :: (jdumpItems lvl (y :: ys) ++ '\n' :: pad ++ ']' :: rest)))
            (by intro c hc; simp at hc; rw [← hc]; decide)]
          simp only []
          rw [skipWs_cons_not _ _ (by decide)]
          simp only []
          rw [show (('\n' :: (jdumpItems lvl (y :: ys) ++ '\n' :: pad ++ ']' :: rest)) : PyStr) =
            ['\n'] ++ (jdumpItems lvl (y :: ys) ++ '\n' :: pad ++ ']' :: rest) from by simp]
          rw [parseElems_ws n _ _ (by decide)]
          rw [ihQ y ys (by simp only [jsizeL] at hs ⊢; omega) hvl2 lvl pad rest hpad]
      -- R: object members
      · intro kv fs hs hval lvl pad rest hpad
        obtain ⟨k, v⟩ := kv
        have hvx : validV v = true := by
          simp only [validF, Bool.and_eq_true] at hval
          exact hval.1
        cases fs with
        | nil =>
          conv_lhs => unfold parseMembers
          rw [show jdumpFields lvl [(k, v)] ++ '\n' :: pad ++ '\x7d' :: rest =
            indentOf lvl ++ ('"' :: ((k.map escChar).flatten ++ ('"' :: (':' :: (' ' ::
              (jdump lvl v ++ ('\n' :: pad ++ '\x7d' :: rest))))))) from
            by simp [jdumpFields, dumpStr]]
          rw [skipWs_all_append _ _ (indentOf_all_ws lvl), skipWs_cons_not _ _ (by decide)]
          simp only []
          rw [strRT]
          simp only []
          rw [skipWs_cons_not _ _ (by decide)]
          simp only []
          rw [show ((' ' :: (jdump lvl v ++ ('\n' :: pad ++ '\x7d' :: rest))) : PyStr) =
            [' '] ++ (jdump lvl v ++ ('\n' :: pad ++ '\x7d' :: rest)) from by simp]
          rw [parseVal_ws n _ _ (by decide)]
          rw [ihP v (by simp [jsizeF] at hs; omega) hvx lvl ('\n' :: pad ++ '\x7d' :: rest)
            (by intro c hc; simp at hc; rw [← hc]; decide)]
          simp only []
          rw [show (('\n' :: pad ++ '\x7d' :: rest) : PyStr) =
            ('\n' :: pad) ++ ('\x7d' :: rest) from by simp]
          rw [skipWs_all_append _ _ (by rw [List.all_cons, hpad]; decide),
            skipWs_cons_not _ _ (by decide)]
          rfl
        | cons f fs2 =>
          obtain ⟨k2, v2⟩ := f
          have hvf2 : validF ((k2, v2) :: fs2) = true := by
            simp only [validF, Bool.and_eq_true] at hval ⊢
            exact hval.2
          conv_lhs => unfold parseMembers
          rw [show jdumpFields lvl ((k, v) :: (k2, v2) :: fs2) ++ '\n' :: pad ++ '\x7d' :: rest =
            indentOf lvl ++ ('"' :: ((k.map escChar).flatten ++ ('"' :: (':' :: (' ' ::
              (jdump lvl v ++ (',' :: ('\n' :: (jdumpFields lvl ((k2, v2) :: fs2) ++
                '\n' :: pad ++ '\x7d' :: rest))))))))) from
            by simp [jdumpFields, dumpStr]]
          rw [skipWs_all_append _ _ (indentOf_all_ws lvl), skipWs_cons_not _ _ (by decide)]
          simp only []
          rw [strRT]
          simp only []
          rw [skipWs_cons_not _ _ (by decide)]
          simp only []
          rw [show ((' ' :: (jdump lvl v ++ (',' :: ('\n' :: (jdumpFields lvl ((k2, v2) :: fs2) ++
              '\n' :: pad ++ '\x7d' :: rest))))) : PyStr) =
            [' '] ++ (jdump lvl v ++ (',' :: ('\n' :: (jdumpFields lvl ((k2, v2) :: fs2) ++
              '\n' :: pad ++ '\x7d' :: rest)))) from by simp]
          rw [parseVal_ws n _ _ (by decide)]
          rw [ihP v (by simp [jsizeF] at hs; omega) hvx lvl
            (',' :: ('\n' :: (jdumpFields lvl ((k2, v2) :: fs2) ++
              '\n' :: pad ++ '\x7d' :: rest)))
            (by intro c hc; simp at hc; rw [← hc]; decide)]
          simp only []
          rw [skipWs_cons_not _ _ (by decide)]
          simp only []
          rw [show (('\n' :: (jdumpFields lvl ((k2, v2) :: fs2) ++
              '\n' :: pad ++ '\x7d' :: rest)) : PyStr) =
            ['\n'] ++ (jdumpFields lvl ((k2, v2) :: fs2) ++
              '\n' :: pad ++ '\x7d' :: rest) from by simp]
          rw [parseMembers_ws n _ _ (by decide)]
          rw [ihR (k2, v2) fs2 (by simp only [jsizeF] at hs ⊢; omega) hvf2
            lvl pad rest hpad]

theorem loads_dumps4 (v : JVal) (hv : validV v = true) : loads (dumps4 v) = some v := by
  unfold loads dumps4
  have hlen : jsize v ≤ (jdump 0 v).length := (jdump_length_all (jsize v)).1 v le_rfl hv 0
  have hP : parseVal ((jdump 0 v).length + 1) (jdump 0 v ++ ([] : PyStr)) = some (v, []) :=
    (parse_jdump ((jdump 0 v).length + 1)).1 v (by omega) hv 0 []
      (by intro c hc; simp at hc)
  rw [List.append_nil] at hP
  rw [hP]
  simp [skipWs]

/-- C9: save_content_calendar writes one JSON document to a file named
content_calendar_YYYYMMDD_HHMMSS.json holding the five run fields, and
json.loads of the written text returns exactly the persisted dict, with
content_calendar equal to the in-memory result. -/
theorem c9_save_roundtrip (now : PyDateTime)
    (industry target_audience content_goals : PyStr) (result : JVal)
    (hres : validV result = true) :
    (save_content_calendar now industry target_audience content_goals result).1 =
      pys "content_calendar_" ++ strftimeTs now ++ pys ".json" ∧
    loads (save_content_calendar now industry target_audience content_goals result).2 =
      some (JVal.obj [(pys "industry", JVal.str industry),
        (pys "target_audience", JVal.str target_audience),
        (pys "content_goals", JVal.str content_goals),
        (pys "timestamp", JVal.str (strftimeTs now)),
        (pys "content_calendar", result)]) := by
  refine ⟨rfl, ?_⟩
  have hv : validV (JVal.obj [(pys "industry", JVal.str industry),
      (pys "target_audience", JVal.str target_audience),
      (pys "content_goals", JVal.str content_goals),
      (pys "timestamp", JVal.str (strftimeTs now)),
      (pys "content_calendar", result)]) = true := by
    have hnd : nodupKeys (jKeys [(pys "industry", JVal.str industry),
        (pys "target_audience", JVal.str target_audience),
        (pys "content_goals", JVal.str content_goals),
        (pys "timestamp", JVal.str (strftimeTs now)),
        (pys "content_calendar", result)]) = true := by
      show nodupKeys [pys "industry", pys "target_audience", pys "content_goals",
        pys "timestamp", pys "content_calendar"] = true
      decide
    simp [validV, validF, hres, hnd]
  exact loads_dumps4 _ hv

theorem c9_save_roundtrip_witness :
    validV (JVal.arr [JVal.str (pys "day one"), JVal.num (pys "2.5")]) = true ∧
    ((save_content_calendar ⟨2024, 5, 6, 7, 8, 9⟩ (pys "tech") (pys "devs") (pys "grow")
        (JVal.arr [JVal.str (pys "day one"), JVal.num (pys "2.5")])).1 =
      pys "content_calendar_" ++ strftimeTs ⟨2024, 5, 6, 7, 8, 9⟩ ++ pys ".json" ∧
    loads (save_content_calendar ⟨2024, 5, 6, 7, 8, 9⟩ (pys "tech") (pys "devs") (pys "grow")
        (JVal.arr [JVal.str (pys "day one"), JVal.num (pys "2.5")])).2 =
      some (JVal.obj [(pys "industry", JVal.str (pys "tech")),
        (pys "target_audience", JVal.str (pys "devs")),
        (pys "content_goals", JVal.str (pys "grow")),
        (pys "timestamp", JVal.str (strftimeTs ⟨2024, 5, 6, 7, 8, 9⟩)),
        (pys "content_calendar",
          JVal.arr [JVal.str (pys "day one"), JVal.num (pys "2.5")])])) :=
  ⟨by decide, c9_save_roundtrip ⟨2024, 5, 6, 7, 8, 9⟩ (pys "tech") (pys "devs") (pys "grow")
    (JVal.arr [JVal.str (pys "day one"), JVal.num (pys "2.5")]) (by decide)⟩
